import Mathlib

/-!
# Scan2Eat: shallow embedding of the core transaction/refund engine

This file embeds the data model and the state-mutating operations of the
Scan2Eat application (`app.py`, `models.py`) as pure Lean functions over an
explicit application state, and proves the specified properties about them.

Modelling conventions:
* Currency amounts (`wallet_balance`, `price`, `amount`, `balance_after`,
  `amount_paid`) are integers (e.g. cents); the source uses Python floats,
  but every claim under study is about the exact arithmetic the code
  performs, which the integer model captures.
* Timestamps (`scanned_at`, `processed_at`, "now") are natural numbers
  counting seconds; `timedelta(hours=24)` is `24 * 3600` seconds.
  Meal dates are natural numbers counting days.
* Database autoincrement ids are modelled by `next_*_id` counters.
* Each Flask view function that mutates state becomes a function
  `AppState → args → Outcome × AppState`; a single `db.session.commit()`
  of several mutations becomes a single simultaneous record update.
* `Model.query.filter_by(...).first()` becomes `List.find?`;
  appending a row becomes `++ [row]`; `db.session.delete` of a row found
  by primary key becomes `List.eraseP`; an ORM in-place mutation of a row
  found by `.first()` / `.get()` becomes `updateFirst` (update the first
  matching list element).
-/

namespace Scan2Eat

/-- `users` table (`models.py`, class `User`). Fields irrelevant to the
claims (`password_hash`, `qr_code_path`, `created_at`) are kept only where
an operation reads or writes them; `password_hash` is carried as an opaque
string. -/
structure User where
  id : Nat
  username : String
  password_hash : String
  name : String
  role : String
  room_number : String
  wallet_balance : Int
  is_active : Bool
deriving DecidableEq, Repr

/-- `wallet_transactions` table (`models.py`, class `WalletTransaction`).
The ledger: `amount` is positive for credit, negative for debit;
`balance_after` snapshots the owner's balance right after this entry. -/
structure WalletTransaction where
  user_id : Nat
  amount : Int
  transaction_type : String
  description : String
  balance_after : Int
deriving DecidableEq, Repr

/-- `meals` table (`models.py`, class `Meal`). -/
structure Meal where
  id : Nat
  mdate : Nat
  meal_type : String
  price : Int
  menu_items : Option String
  is_active : Bool
deriving DecidableEq, Repr

/-- `attendance` table (`models.py`, class `Attendance`). -/
structure Attendance where
  id : Nat
  user_id : Nat
  meal_id : Nat
  amount_paid : Int
  scanned_at : Nat
deriving DecidableEq, Repr

/-- `refund_requests` table (`models.py`, class `RefundRequest`). -/
structure RefundRequest where
  id : Nat
  user_id : Nat
  attendance_id : Nat
  amount : Int
  reason : String
  status : String
  admin_remarks : Option String
  processed_at : Option Nat
deriving DecidableEq, Repr

/-- The whole persistent state of the application: the five tables, in
insertion order (so "most recent" ledger entry = last matching element),
plus the autoincrement counters. -/
structure AppState where
  users : List User
  transactions : List WalletTransaction
  meals : List Meal
  attendances : List Attendance
  refund_requests : List RefundRequest
  next_user_id : Nat
  next_meal_id : Nat
  next_attendance_id : Nat
  next_refund_id : Nat
deriving DecidableEq, Repr

/-- Update the first element satisfying `p` (an ORM row mutation on the
result of `.first()` / `.get()`). -/
def updateFirst (p : α → Bool) (f : α → α) : List α → List α
  | [] => []
  | a :: l => if p a then f a :: l else a :: updateFirst p f l

/-- The database created by `init_db.py`: empty tables plus the default
admin account (id 0, `wallet_balance` at its column default 0). -/
def initState : AppState :=
  { users := [{ id := 0, username := "admin", password_hash := "admin123#hashed",
                name := "Administrator", role := "admin", room_number := "",
                wallet_balance := 0, is_active := true }]
    transactions := []
    meals := []
    attendances := []
    refund_requests := []
    next_user_id := 1
    next_meal_id := 0
    next_attendance_id := 0
    next_refund_id := 0 }

/-- Split a character list at every occurrence of `c` (the semantics of
Python's `str.split` with a one-character separator). -/
def splitOnChar (c : Char) : List Char → List (List Char)
  | [] => [[]]
  | x :: xs =>
    match splitOnChar c xs with
    | [] => if x == c then [[], []] else [[x]]
    | g :: gs => if x == c then [] :: g :: gs else (x :: g) :: gs

/-- The roll-number format check of `register_student` (`app.py` line 189):
regex `^\d\x7b4\x7d-[A-Za-z]\x7b2,5\x7d-\d\x7b1,4\x7d$`, i.e. exactly three
dash-separated groups: 4 digits, 2 to 5 letters, 1 to 4 digits. -/
def rollPatternOk (roll : String) : Bool :=
  match splitOnChar (Char.ofNat 45) roll.data with
  | [a, b, c] =>
      a.length == 4 && a.all Char.isDigit &&
      Nat.ble 2 b.length && Nat.ble b.length 5 && b.all Char.isAlpha &&
      Nat.ble 1 c.length && Nat.ble c.length 4 && c.all Char.isDigit
  | _ => false

/-- Python's `str.upper()`. -/
def pyUpper (s : String) : String := String.mk (s.data.map Char.toUpper)

/-- Python's `str.strip()` (whitespace from both ends). -/
def pyStrip (s : String) : String :=
  String.mk
    (((s.data.dropWhile Char.isWhitespace).reverse.dropWhile
      Char.isWhitespace).reverse)

/-- Python's `str.capitalize()`. -/
def pyCapitalize (s : String) : String :=
  match s.data with
  | [] => ""
  | ch :: rest => String.mk (Char.toUpper ch :: rest.map Char.toLower)

inductive RegisterOutcome where
  | invalidFormat
  | duplicateRoll
  | ok (newUserId : Nat)
deriving DecidableEq, Repr

/-- `register_student` (`app.py` lines 180-233), POST branch: validate the
roll format, uppercase, refuse duplicates, create the student with
`wallet_balance := initial_balance`, and append an initial credit ledger
entry only when `initial_balance > 0`. -/
def register_student (s : AppState) (name roll room password : String)
    (initial_balance : Int) : RegisterOutcome × AppState :=
  if !rollPatternOk roll then (.invalidFormat, s)
  else
    let rollU := pyUpper roll
    match s.users.find? (fun u => u.username == rollU) with
    | some _ => (.duplicateRoll, s)
    | none =>
      let uid := s.next_user_id
      let newUser : User :=
        { id := uid, username := rollU, password_hash := password ++ "#hashed",
          name := name, role := "student", room_number := room,
          wallet_balance := initial_balance, is_active := true }
      let s1 := { s with users := s.users ++ [newUser], next_user_id := uid + 1 }
      if initial_balance > 0 then
        let t : WalletTransaction :=
          { user_id := uid, amount := initial_balance, transaction_type := "credit",
            description := "Initial wallet balance", balance_after := initial_balance }
        (.ok uid, { s1 with transactions := s1.transactions ++ [t] })
      else (.ok uid, s1)

inductive AddBalanceOutcome where
  | studentNotFound
  | ok (newBalance : Int)
deriving DecidableEq, Repr

/-- `add_balance` (`app.py` lines 312-339), POST branch: look the user up
by id, add `amount` to the balance and append a credit ledger entry with
`balance_after` equal to the updated balance. -/
def add_balance (s : AppState) (student_id : Nat) (amount : Int) :
    AddBalanceOutcome × AppState :=
  match s.users.find? (fun u => u.id == student_id) with
  | none => (.studentNotFound, s)
  | some student =>
    let newBal := student.wallet_balance + amount
    let t : WalletTransaction :=
      { user_id := student.id, amount := amount, transaction_type := "credit",
        description := "Balance added by admin", balance_after := newBal }
    (.ok newBal,
      { s with
        users := updateFirst (fun u => u.id == student_id)
          (fun u => { u with wallet_balance := u.wallet_balance + amount }) s.users
        transactions := s.transactions ++ [t] })

inductive ApiAddBalanceOutcome where
  | invalidAmount
  | studentNotFound
  | ok (newBalance : Int)
deriving DecidableEq, Repr

/-- `api_add_balance` (`app.py` lines 759-787): same as `add_balance` but
rejecting non-positive amounts first. -/
def api_add_balance (s : AppState) (student_id : Nat) (amount : Int) :
    ApiAddBalanceOutcome × AppState :=
  if amount ≤ 0 then (.invalidAmount, s)
  else
    match s.users.find? (fun u => u.id == student_id) with
    | none => (.studentNotFound, s)
    | some student =>
      let newBal := student.wallet_balance + amount
      let t : WalletTransaction :=
        { user_id := student.id, amount := amount, transaction_type := "credit",
          description := "Balance added by admin", balance_after := newBal }
      (.ok newBal,
        { s with
          users := updateFirst (fun u => u.id == student_id)
            (fun u => { u with wallet_balance := u.wallet_balance + amount }) s.users
          transactions := s.transactions ++ [t] })

inductive MealCreateOutcome where
  | duplicate
  | ok (newMealId : Nat)
deriving DecidableEq, Repr

/-- `manage_meals` (`app.py` lines 344-369), POST branch: refuse a second
meal with the same `(date, meal_type)`, otherwise insert the meal
(`is_active` at its column default `true`); an empty stripped menu is
stored as NULL. -/
def manage_meals (s : AppState) (mdate : Nat) (meal_type : String)
    (price : Int) (menu_items : String) : MealCreateOutcome × AppState :=
  let menu := pyStrip menu_items
  match s.meals.find? (fun m => m.mdate == mdate && m.meal_type == meal_type) with
  | some _ => (.duplicate, s)
  | none =>
    let mid := s.next_meal_id
    let newMeal : Meal :=
      { id := mid, mdate := mdate, meal_type := meal_type, price := price,
        menu_items := if menu == "" then none else some menu, is_active := true }
    (.ok mid, { s with meals := s.meals ++ [newMeal], next_meal_id := mid + 1 })

inductive MealEditOutcome where
  | mealNotFound
  | duplicate
  | ok
deriving DecidableEq, Repr

/-- `edit_meal` (`app.py` lines 374-403), POST branch: 404 when the meal id
is absent; refuse when a different meal already holds the new
`(date, meal_type)`; otherwise overwrite all editable fields. -/
def edit_meal (s : AppState) (meal_id : Nat) (mdate : Nat) (meal_type : String)
    (price : Int) (menu_items : String) (is_active : Bool) :
    MealEditOutcome × AppState :=
  match s.meals.find? (fun m => m.id == meal_id) with
  | none => (.mealNotFound, s)
  | some _ =>
    let menu := pyStrip menu_items
    match s.meals.find? (fun m =>
        m.mdate == mdate && m.meal_type == meal_type && !(m.id == meal_id)) with
    | some _ => (.duplicate, s)
    | none =>
      let meals := updateFirst (fun m => m.id == meal_id)
        (fun m => { m with mdate := mdate, meal_type := meal_type, price := price,
                           menu_items := if menu == "" then none else some menu,
                           is_active := is_active }) s.meals
      (.ok, { s with meals := meals })

inductive MealDeleteOutcome where
  | mealNotFound
  | hasAttendance
  | ok
deriving DecidableEq, Repr

/-- `delete_meal` (`app.py` lines 792-803): 404 when absent; refuse when
any attendance references the meal; otherwise delete the row. -/
def delete_meal (s : AppState) (meal_id : Nat) : MealDeleteOutcome × AppState :=
  match s.meals.find? (fun m => m.id == meal_id) with
  | none => (.mealNotFound, s)
  | some meal =>
    if s.attendances.countP (fun a => a.meal_id == meal.id) > 0 then
      (.hasAttendance, s)
    else
      (.ok, { s with meals := s.meals.eraseP (fun m => m.id == meal_id) })

inductive MealToggleOutcome where
  | mealNotFound
  | ok (is_active : Bool)
deriving DecidableEq, Repr

/-- `toggle_meal` (`app.py` lines 808-815): set `is_active` to the supplied
value, defaulting to the flag's negation when the request omits it. -/
def toggle_meal (s : AppState) (meal_id : Nat) (is_active : Option Bool) :
    MealToggleOutcome × AppState :=
  match s.meals.find? (fun m => m.id == meal_id) with
  | none => (.mealNotFound, s)
  | some meal =>
    let b := is_active.getD (!meal.is_active)
    let meals := updateFirst (fun m => m.id == meal_id)
      (fun m => { m with is_active := b }) s.meals
    (.ok b, { s with meals := meals })

/-- `deactivate_past_meals` (`app.py` lines 31-33): the before-request
sweep clearing `is_active` on every meal dated before today. -/
def deactivate_past_meals (s : AppState) (today : Nat) : AppState :=
  { s with meals := s.meals.map (fun m =>
      if m.mdate < today && m.is_active then { m with is_active := false } else m) }

inductive StudentAdminOutcome where
  | notFound
  | invalidStudent
  | ok
deriving DecidableEq, Repr

/-- `edit_student` (`app.py` lines 255-277), POST branch: update name and
room, and the password hash when a new password is supplied. -/
def edit_student (s : AppState) (student_id : Nat) (name room : String)
    (new_password : Option String) : StudentAdminOutcome × AppState :=
  match s.users.find? (fun u => u.id == student_id) with
  | none => (.notFound, s)
  | some student =>
    if !(student.role == "student") then (.invalidStudent, s)
    else
      let users := updateFirst (fun u => u.id == student_id)
        (fun u =>
          let u := { u with name := name, room_number := room }
          match new_password with
          | some p => { u with password_hash := p ++ "#hashed" }
          | none => u) s.users
      (.ok, { s with users := users })

/-- `delete_student` (`app.py` lines 282-292): soft delete — clear
`is_active`, never remove the row. -/
def delete_student (s : AppState) (student_id : Nat) :
    StudentAdminOutcome × AppState :=
  match s.users.find? (fun u => u.id == student_id) with
  | none => (.notFound, s)
  | some student =>
    if !(student.role == "student") then (.invalidStudent, s)
    else
      let users := updateFirst (fun u => u.id == student_id)
        (fun u => { u with is_active := false }) s.users
      (.ok, { s with users := users })

/-- `toggle_student_status` (`app.py` lines 297-307): flip `is_active`. -/
def toggle_student_status (s : AppState) (student_id : Nat) :
    StudentAdminOutcome × AppState :=
  match s.users.find? (fun u => u.id == student_id) with
  | none => (.notFound, s)
  | some student =>
    if !(student.role == "student") then (.invalidStudent, s)
    else
      let users := updateFirst (fun u => u.id == student_id)
        (fun u => { u with is_active := !u.is_active }) s.users
      (.ok, { s with users := users })

/-- Outcome of `process_scan`; one constructor per distinct user-facing
JSON response of `app.py` lines 422-472. -/
inductive ScanOutcome where
  | studentNotFound
  | accountDeactivated
  | mealNotFound
  | alreadyScanned
  | insufficientBalance (currentBalance : Int)
  | success (studentName mealType : String) (amount newBalance : Int)
deriving DecidableEq, Repr

/-- `process_scan` (`app.py` lines 415-472), the scan engine: find the
student by roll number (role student), check the account is active, find
the meal by id, refuse a second scan of the same `(student, meal)` pair,
require `wallet_balance ≥ price`; then in one commit deduct the price,
append the debit ledger entry with `balance_after` = new balance, and
insert the attendance with `amount_paid` = the meal's price. -/
def process_scan (s : AppState) (roll_number : String) (meal_id : Nat)
    (now : Nat) : ScanOutcome × AppState :=
  match s.users.find? (fun u => u.username == roll_number && u.role == "student") with
  | none => (.studentNotFound, s)
  | some student =>
    if !student.is_active then (.accountDeactivated, s)
    else
      match s.meals.find? (fun m => m.id == meal_id) with
      | none => (.mealNotFound, s)
      | some meal =>
        match s.attendances.find? (fun a =>
            a.user_id == student.id && a.meal_id == meal.id) with
        | some _ => (.alreadyScanned, s)
        | none =>
          if student.wallet_balance < meal.price then
            (.insufficientBalance student.wallet_balance, s)
          else
            let newBal := student.wallet_balance - meal.price
            let t : WalletTransaction :=
              { user_id := student.id, amount := -meal.price,
                transaction_type := "debit",
                description := pyCapitalize meal.meal_type ++ " on " ++ toString meal.mdate,
                balance_after := newBal }
            let att : Attendance :=
              { id := s.next_attendance_id, user_id := student.id,
                meal_id := meal.id, amount_paid := meal.price, scanned_at := now }
            (.success student.name meal.meal_type meal.price newBal,
              { s with
                users := updateFirst
                  (fun u => u.username == roll_number && u.role == "student")
                  (fun u => { u with wallet_balance := u.wallet_balance - meal.price })
                  s.users
                transactions := s.transactions ++ [t]
                attendances := s.attendances ++ [att]
                next_attendance_id := s.next_attendance_id + 1 })

/-- Outcome of `request_refund`; one constructor per distinct JSON
response of `app.py` lines 616-647 (plus the 404 of `get_or_404`). -/
inductive RefundRequestOutcome where
  | unauthorized
  | attendanceNotFound
  | alreadyRequested
  | windowExpired
  | ok
deriving DecidableEq, Repr

/-- The refund window: `timedelta(hours=24)` in seconds. -/
def refundWindow : Nat := 24 * 3600

/-- `request_refund` (`app.py` lines 616-647): the caller must be a
student, the attendance must exist (else 404) and belong to the caller, no
refund request of any status may already reference it, and no more than 24
hours may have passed since the scan; then a pending request is created
with `amount` = the attendance's `amount_paid`. The caller is the
logged-in user, modelled by looking its id up in `users` (a caller id
absent from the table cannot occur through the web layer; it is mapped to
the role-check rejection). -/
def request_refund (s : AppState) (caller_id : Nat) (attendance_id : Nat)
    (reason : String) (now : Nat) : RefundRequestOutcome × AppState :=
  match s.users.find? (fun u => u.id == caller_id) with
  | none => (.unauthorized, s)
  | some caller =>
    if !(caller.role == "student") then (.unauthorized, s)
    else
      match s.attendances.find? (fun a => a.id == attendance_id) with
      | none => (.attendanceNotFound, s)
      | some attendance =>
        if !(attendance.user_id == caller.id) then (.unauthorized, s)
        else
          match s.refund_requests.find? (fun r => r.attendance_id == attendance_id) with
          | some _ => (.alreadyRequested, s)
          | none =>
            if now - attendance.scanned_at > refundWindow then (.windowExpired, s)
            else
              let rr : RefundRequest :=
                { id := s.next_refund_id, user_id := caller.id,
                  attendance_id := attendance_id, amount := attendance.amount_paid,
                  reason := reason, status := "pending",
                  admin_remarks := none, processed_at := none }
              (.ok,
                { s with refund_requests := s.refund_requests ++ [rr],
                         next_refund_id := s.next_refund_id + 1 })

/-- Outcome of `process_refund`; one constructor per distinct JSON
response of `app.py` lines 665-704 (plus the 404, plus a `danglingUser`
marker for a refund request whose `user_id` matches no row — impossible
under the foreign-key constraint, where the source would raise). -/
inductive RefundResolveOutcome where
  | requestNotFound
  | alreadyProcessed
  | approved (amount : Int)
  | rejected
  | invalidAction
  | danglingUser
deriving DecidableEq, Repr

/-- The description of the credit entry written on approval (`app.py`
line 684): it reads the meal through the attendance backref. -/
def refundDescription (s : AppState) (rr : RefundRequest) : String :=
  match s.attendances.find? (fun a => a.id == rr.attendance_id) with
  | none => ""
  | some attendance =>
    match s.meals.find? (fun m => m.id == attendance.meal_id) with
    | none => ""
    | some meal => "Refund for " ++ meal.meal_type ++ " on " ++ toString meal.mdate

/-- `process_refund` (`app.py` lines 665-704): 404 when the request id is
absent; refuse when the status is no longer pending; on `approve`, in one
commit credit `amount` back to the owner's balance, append the credit
ledger entry, and set status/remarks/processed_at; on `reject`, set
status/remarks/processed_at with no ledger mutation; any other action
changes nothing. -/
def process_refund (s : AppState) (request_id : Nat) (action remarks : String)
    (now : Nat) : RefundResolveOutcome × AppState :=
  match s.refund_requests.find? (fun r => r.id == request_id) with
  | none => (.requestNotFound, s)
  | some rr =>
    if !(rr.status == "pending") then (.alreadyProcessed, s)
    else if action == "approve" then
      match s.users.find? (fun u => u.id == rr.user_id) with
      | none => (.danglingUser, s)
      | some student =>
        let newBal := student.wallet_balance + rr.amount
        let t : WalletTransaction :=
          { user_id := student.id, amount := rr.amount, transaction_type := "credit",
            description := refundDescription s rr, balance_after := newBal }
        (.approved rr.amount,
          { s with
            users := updateFirst (fun u => u.id == rr.user_id)
              (fun u => { u with wallet_balance := u.wallet_balance + rr.amount })
              s.users
            transactions := s.transactions ++ [t]
            refund_requests := updateFirst (fun r => r.id == request_id)
              (fun r => { r with status := "approved", admin_remarks := some remarks,
                                 processed_at := some now }) s.refund_requests })
    else if action == "reject" then
      let rrs := updateFirst (fun r => r.id == request_id)
        (fun r => { r with status := "rejected", admin_remarks := some remarks,
                           processed_at := some now }) s.refund_requests
      (.rejected, { s with refund_requests := rrs })
    else (.invalidAction, s)

/-! ## Derived reads and invariant statements -/

/-- The `balance_after` of the most recently appended ledger entry for
user `uid` in the transaction list `ts`, or 0 when the user has none. -/
def ledgerBalanceL (ts : List WalletTransaction) (uid : Nat) : Int :=
  match (ts.filter (fun t => t.user_id == uid)).getLast? with
  | some t => t.balance_after
  | none => 0

/-- The ledger-derived balance of user `uid` in state `s`. -/
def ledgerBalance (s : AppState) (uid : Nat) : Int :=
  ledgerBalanceL s.transactions uid

/-- Invariant, spec §6 / §8: every account's stored `wallet_balance`
equals the `balance_after` of its most recent ledger entry, or zero when
it has no entries. -/
def ledgerInvOn (users : List User) (ts : List WalletTransaction) : Prop :=
  ∀ u ∈ users, u.wallet_balance = ledgerBalanceL ts u.id

/-- `ledgerInvOn` on the state's own tables. -/
def ledgerInv (s : AppState) : Prop := ledgerInvOn s.users s.transactions

instance : DecidablePred ledgerInv := fun s =>
  inferInstanceAs (Decidable (∀ u ∈ s.users, u.wallet_balance = ledgerBalanceL s.transactions u.id))

/-- Invariant, spec §3: at most one `Attendance` per `(account, meal)`
pair. -/
def attPairUnique (s : AppState) : Prop :=
  List.Pairwise (fun a b => ¬(a.user_id = b.user_id ∧ a.meal_id = b.meal_id))
    s.attendances

/-- The stored balance of the student with roll number `roll` (the same
lookup `process_scan` performs). -/
def balanceOf (s : AppState) (roll : String) : Option Int :=
  (s.users.find? (fun u => u.username == roll && u.role == "student")).map
    User.wallet_balance

/-- The stored balance of the user with id `uid`. -/
def balanceOfId (s : AppState) (uid : Nat) : Option Int :=
  (s.users.find? (fun u => u.id == uid)).map User.wallet_balance

/-- Database well-formedness: primary keys are unique and below their
autoincrement counter, usernames are unique (the `users.username` column
is `unique=True`), and every ledger entry was written for an already
allocated user id. -/
structure WF (s : AppState) : Prop where
  users_ids_nodup : (s.users.map User.id).Nodup
  usernames_nodup : (s.users.map User.username).Nodup
  users_id_lt : ∀ u ∈ s.users, u.id < s.next_user_id
  trans_user_lt : ∀ t ∈ s.transactions, t.user_id < s.next_user_id
  meals_ids_nodup : (s.meals.map Meal.id).Nodup
  meals_id_lt : ∀ m ∈ s.meals, m.id < s.next_meal_id
  att_ids_nodup : (s.attendances.map Attendance.id).Nodup
  att_id_lt : ∀ a ∈ s.attendances, a.id < s.next_attendance_id
  refund_ids_nodup : (s.refund_requests.map RefundRequest.id).Nodup
  refund_id_lt : ∀ r ∈ s.refund_requests, r.id < s.next_refund_id

/-- One state-mutating operation of the application: the admissible steps
of the transition system. -/
inductive Op where
  | register (name roll room password : String) (initial_balance : Int)
  | addBalance (student_id : Nat) (amount : Int)
  | apiAddBalance (student_id : Nat) (amount : Int)
  | createMeal (mdate : Nat) (meal_type : String) (price : Int) (menu_items : String)
  | editMeal (meal_id mdate : Nat) (meal_type : String) (price : Int)
      (menu_items : String) (is_active : Bool)
  | deleteMeal (meal_id : Nat)
  | toggleMeal (meal_id : Nat) (is_active : Option Bool)
  | sweepMeals (today : Nat)
  | editStudent (student_id : Nat) (name room : String) (new_password : Option String)
  | deleteStudent (student_id : Nat)
  | toggleStudent (student_id : Nat)
  | scan (roll_number : String) (meal_id now : Nat)
  | refundRequest (caller_id attendance_id : Nat) (reason : String) (now : Nat)
  | refundResolve (request_id : Nat) (action remarks : String) (now : Nat)
deriving Repr

/-- The state reached by executing one operation (discarding the
user-facing outcome). -/
def applyOp (s : AppState) : Op → AppState
  | .register n r rm pw b => (register_student s n r rm pw b).2
  | .addBalance i a => (add_balance s i a).2
  | .apiAddBalance i a => (api_add_balance s i a).2
  | .createMeal d ty p mn => (manage_meals s d ty p mn).2
  | .editMeal i d ty p mn act => (edit_meal s i d ty p mn act).2
  | .deleteMeal i => (delete_meal s i).2
  | .toggleMeal i act => (toggle_meal s i act).2
  | .sweepMeals today => deactivate_past_meals s today
  | .editStudent i n rm pw => (edit_student s i n rm pw).2
  | .deleteStudent i => (delete_student s i).2
  | .toggleStudent i => (toggle_student_status s i).2
  | .scan r m now => (process_scan s r m now).2
  | .refundRequest c a rsn now => (request_refund s c a rsn now).2
  | .refundResolve i act rem now => (process_refund s i act rem now).2

/-- Registrations supplying a nonnegative opening balance (the amendment
the ledger invariant needs; all other operations are unrestricted). -/
def OpOK : Op → Prop
  | .register _ _ _ _ b => 0 ≤ b
  | _ => True

/-- States reachable from the initialized database through admissible
operations. -/
inductive ReachableOK : AppState → Prop where
  | init : ReachableOK initState
  | step {s : AppState} {op : Op} : ReachableOK s → OpOK op →
      ReachableOK (applyOp s op)

/-- States reachable from the initialized database through arbitrary
operations. -/
inductive Reachable : AppState → Prop where
  | init : Reachable initState
  | step {s : AppState} (op : Op) : Reachable s → Reachable (applyOp s op)

/-- Whether a scan outcome is the success response. -/
def ScanOutcome.isSuccess : ScanOutcome → Bool
  | .success _ _ _ _ => true
  | _ => false

/-! ### Concrete demonstration runs (used to instantiate the theorems;
money in the smallest currency unit, times in seconds, dates in days) -/

/-- Register the student Bob with an opening balance of 100. -/
def demoReg : AppState :=
  (register_student initState "Bob" "2024-CS-562" "A1" "pw" 100).2

/-- Add a lunch meal, day 10, price 50. -/
def demoMeals : AppState := (manage_meals demoReg 10 "lunch" 50 "rice").2

/-- Bob scans the lunch at time 1000: balance 100 → 50. -/
def demoScan : AppState := (process_scan demoMeals "2024-CS-562" 0 1000).2

/-- Bob requests a refund of that attendance at time 2000 (within 24h). -/
def demoReq : AppState := (request_refund demoScan 1 0 "sick" 2000).2

/-- An admin then edits the lunch's price from 50 to 80. -/
def demoEdit : AppState := (edit_meal demoReq 0 10 "lunch" 80 "rice" true).2

/-- Bob's `users` row as stored in `demoMeals` (before any scan). -/
def demoBob : User :=
  { id := 1, username := "2024-CS-562", password_hash := "pw#hashed",
    name := "Bob", role := "student", room_number := "A1",
    wallet_balance := 100, is_active := true }

/-- The lunch row as stored in `demoMeals`. -/
def demoLunch : Meal :=
  { id := 0, mdate := 10, meal_type := "lunch", price := 50,
    menu_items := some "rice", is_active := true }

/-- The pending refund request as stored in `demoReq`/`demoEdit`. -/
def demoPending : RefundRequest :=
  { id := 0, user_id := 1, attendance_id := 0, amount := 50, reason := "sick",
    status := "pending", admin_remarks := none, processed_at := none }

/-- Bob's `users` row after the scan (balance 100 → 50). -/
def demoBobAfter : User :=
  { id := 1, username := "2024-CS-562", password_hash := "pw#hashed",
    name := "Bob", role := "student", room_number := "A1",
    wallet_balance := 50, is_active := true }

/-- The attendance row created by `demoScan`. -/
def demoAtt : Attendance :=
  { id := 0, user_id := 1, meal_id := 0, amount_paid := 50, scanned_at := 1000 }

/-- Register the student Eve whose balance exactly equals the meal price
(the boundary case of the spec). -/
def demoEveReg : AppState :=
  (register_student initState "Eve" "2024-EE-700" "B2" "pw" 50).2

/-- A dinner priced exactly at Eve's balance. -/
def demoEveMeals : AppState := (manage_meals demoEveReg 12 "dinner" 50 "").2

/-- Eve's `users` row as stored in `demoEveMeals`. -/
def demoEve : User :=
  { id := 1, username := "2024-EE-700", password_hash := "pw#hashed",
    name := "Eve", role := "student", room_number := "B2",
    wallet_balance := 50, is_active := true }

/-- The dinner row as stored in `demoEveMeals`. -/
def demoDinner : Meal :=
  { id := 0, mdate := 12, meal_type := "dinner", price := 50,
    menu_items := none, is_active := true }

/-- An admin approves Bob's pending refund request at time 3000. -/
def demoApproved : AppState := (process_refund demoReq 0 "approve" "ok" 3000).2

/-- The refund request row as stored in `demoApproved`. -/
def demoDone : RefundRequest :=
  { id := 0, user_id := 1, attendance_id := 0, amount := 50, reason := "sick",
    status := "approved", admin_remarks := some "ok", processed_at := some 3000 }

/-- The expired-meal sweep on day 11 deactivates the day-10 lunch. -/
def demoSwept : AppState := deactivate_past_meals demoMeals 11

/-- The lunch row after the sweep: `is_active` cleared. -/
def demoLunchOff : Meal :=
  { id := 0, mdate := 10, meal_type := "lunch", price := 50,
    menu_items := some "rice", is_active := false }

/-! ## Helper lemmas: `updateFirst`, ledger reads -/

theorem updateFirst_map_eq {α β : Type} {p : α → Bool} {f : α → α} {g : α → β}
    (h : ∀ x, g (f x) = g x) (l : List α) :
    (updateFirst p f l).map g = l.map g := by
  induction l with
  | nil => rfl
  | cons a l ih =>
    by_cases hp : p a
    · simp [updateFirst, hp, h a]
    · simp [updateFirst, hp, ih]

theorem mem_updateFirst {α : Type} {p : α → Bool} {f : α → α} {l : List α}
    {a : α} (h : a ∈ updateFirst p f l) :
    a ∈ l ∨ ∃ b ∈ l, p b = true ∧ a = f b := by
  induction l with
  | nil => simp [updateFirst] at h
  | cons c l ih =>
    by_cases hp : p c
    · simp only [updateFirst, hp, if_pos] at h
      rcases List.mem_cons.1 h with h | h
      · exact Or.inr ⟨c, List.mem_cons_self c l, hp, h⟩
      · exact Or.inl (List.mem_cons_of_mem _ h)
    · simp only [updateFirst, hp, if_neg, Bool.false_eq_true, not_false_iff] at h
      rcases List.mem_cons.1 h with h | h
      · exact Or.inl (h ▸ List.mem_cons_self c l)
      · rcases ih h with h | ⟨b, hb, hpb, hab⟩
        · exact Or.inl (List.mem_cons_of_mem _ h)
        · exact Or.inr ⟨b, List.mem_cons_of_mem _ hb, hpb, hab⟩

theorem updateFirst_eq_of_find?_none {α : Type} {p : α → Bool} {f : α → α}
    {l : List α} (h : l.find? p = none) : updateFirst p f l = l := by
  induction l with
  | nil => rfl
  | cons a l ih =>
    rw [List.find?_cons] at h
    by_cases hp : p a
    · simp [hp] at h
    · simp only [hp] at h
      simp [updateFirst, hp, ih h]

theorem find?_updateFirst_self {α : Type} (p : α → Bool) (f : α → α)
    (hp : ∀ x, p (f x) = p x) (l : List α) :
    (updateFirst p f l).find? p = (l.find? p).map f := by
  induction l with
  | nil => rfl
  | cons a l ih =>
    by_cases hpa : p a
    · simp [updateFirst, hpa, List.find?_cons, hp a]
    · simp [updateFirst, hpa, List.find?_cons, ih]

theorem ledgerBalanceL_append_ne {ts : List WalletTransaction}
    {t : WalletTransaction} {uid : Nat} (h : t.user_id ≠ uid) :
    ledgerBalanceL (ts ++ [t]) uid = ledgerBalanceL ts uid := by
  unfold ledgerBalanceL
  rw [List.filter_append]
  have : [t].filter (fun x => x.user_id == uid) = [] := by
    have hb : (t.user_id == uid) = false := by
      simpa using h
    simp [List.filter, hb]
  rw [this, List.append_nil]

theorem ledgerBalanceL_append_self {ts : List WalletTransaction}
    {t : WalletTransaction} {uid : Nat} (h : t.user_id = uid) :
    ledgerBalanceL (ts ++ [t]) uid = t.balance_after := by
  unfold ledgerBalanceL
  rw [List.filter_append]
  have : [t].filter (fun x => x.user_id == uid) = [t] := by
    simp [List.filter, h]
  rw [this]
  simp

theorem ledgerBalanceL_eq_zero {ts : List WalletTransaction} {uid : Nat}
    (h : ∀ t ∈ ts, t.user_id ≠ uid) : ledgerBalanceL ts uid = 0 := by
  unfold ledgerBalanceL
  have : ts.filter (fun t => t.user_id == uid) = [] := by
    apply List.filter_eq_nil_iff.2
    intro t ht
    simpa using h t ht
  rw [this]
  rfl

theorem map_map_id_eq {α β : Type} {f : α → α} {g : α → β}
    (h : ∀ x, g (f x) = g x) (l : List α) : (l.map f).map g = l.map g := by
  induction l with
  | nil => rfl
  | cons a l ih => simp [h a, ih]

theorem nodup_append_singleton {α : Type} {l : List α} {a : α}
    (h : l.Nodup) (ha : a ∉ l) : (l ++ [a]).Nodup := by
  simp [List.nodup_append, h, ha]

theorem not_mem_map_of_forall_lt {α : Type} {l : List α} {g : α → Nat} {n : Nat}
    (h : ∀ x ∈ l, g x < n) : n ∉ l.map g := by
  intro hn
  rcases List.mem_map.1 hn with ⟨x, hx, hgx⟩
  exact absurd (hgx ▸ h x hx) (lt_irrefl n)

theorem not_mem_map_of_find?_beq_none {α β : Type} [BEq β] [LawfulBEq β]
    {g : α → β} {b : β} {l : List α}
    (h : l.find? (fun x => g x == b) = none) : b ∉ l.map g := by
  rw [List.find?_eq_none] at h
  intro hb
  rcases List.mem_map.1 hb with ⟨x, hx, hgx⟩
  exact h x hx (by simp [hgx])

theorem ne_of_mem_map_nodup_head {α : Type} {g : α → Nat} {u : α} {rest : List α}
    (hnodup : ((u :: rest).map g).Nodup) {v : α} (hv : v ∈ rest) :
    g v ≠ g u := by
  rw [List.map_cons, List.nodup_cons] at hnodup
  intro hgv
  exact hnodup.1 (hgv ▸ List.mem_map_of_mem g hv)

/-- Core ledger-invariant step: update the first user matched by `p`
(which `find?` says is `student`) and append one ledger entry written for
that user whose `balance_after` snapshots the updated balance; the
invariant survives. -/
theorem ledgerInvOn_step {users : List User} {ts : List WalletTransaction}
    {p : User → Bool} {f : User → User} {student : User}
    (hfind : users.find? p = some student)
    (hnodup : (users.map User.id).Nodup)
    (hinv : ledgerInvOn users ts)
    {t : WalletTransaction}
    (hfid : ∀ u, (f u).id = u.id)
    (ht1 : t.user_id = student.id)
    (ht2 : t.balance_after = (f student).wallet_balance) :
    ledgerInvOn (updateFirst p f users) (ts ++ [t]) := by
  induction users with
  | nil => simp at hfind
  | cons u rest ih =>
    by_cases hpu : p u
    · rw [List.find?_cons_of_pos _ hpu, Option.some.injEq] at hfind
      subst hfind
      intro v hv
      rw [updateFirst, if_pos hpu] at hv
      rcases List.mem_cons.1 hv with rfl | hv
      · rw [ledgerBalanceL_append_self (by rw [ht1, hfid]), ht2]
      · have hne : t.user_id ≠ v.id := by
          rw [ht1]
          exact fun hc => ne_of_mem_map_nodup_head hnodup hv hc.symm
        rw [ledgerBalanceL_append_ne hne]
        exact hinv v (List.mem_cons_of_mem _ hv)
    · rw [List.find?_cons_of_neg _ hpu] at hfind
      intro v hv
      rw [updateFirst, if_neg hpu] at hv
      rcases List.mem_cons.1 hv with rfl | hv
      · have hne : t.user_id ≠ v.id := by
          rw [ht1]
          exact fun hc =>
            ne_of_mem_map_nodup_head hnodup (List.mem_of_find?_eq_some hfind) hc
        rw [ledgerBalanceL_append_ne hne]
        exact hinv v (List.mem_cons_self _ _)
      · have hrest : ledgerInvOn rest ts := fun w hw =>
          hinv w (List.mem_cons_of_mem _ hw)
        have hnd : (rest.map User.id).Nodup := by
          rw [List.map_cons, List.nodup_cons] at hnodup
          exact hnodup.2
        exact ih hfind hnd hrest v hv

/-- Updating users in a way that changes neither ids nor balances leaves
the ledger invariant intact. -/
theorem ledgerInvOn_update_invariant {users : List User}
    {ts : List WalletTransaction} {p : User → Bool} {f : User → User}
    (hid : ∀ u, (f u).id = u.id)
    (hbal : ∀ u, (f u).wallet_balance = u.wallet_balance)
    (hinv : ledgerInvOn users ts) : ledgerInvOn (updateFirst p f users) ts := by
  intro v hv
  rcases mem_updateFirst hv with hv | ⟨b, hb, _, rfl⟩
  · exact hinv v hv
  · rw [hid, hbal]
    exact hinv b hb

/-- Appending users and entries for a fresh user id: the new user carries
its entry's `balance_after` (or zero with no entry); old users are
untouched. Specialized to `register_student` below. -/
theorem ledgerInvOn_append_fresh {users : List User}
    {ts : List WalletTransaction} {u : User}
    (hfresh : ∀ t ∈ ts, t.user_id ≠ u.id)
    (hinv : ledgerInvOn users ts)
    (hu : u.wallet_balance = 0) :
    ledgerInvOn (users ++ [u]) ts := by
  intro v hv
  rcases List.mem_append.1 hv with hv | hv
  · exact hinv v hv
  · rcases List.mem_singleton.1 hv with rfl
    rw [hu, ledgerBalanceL_eq_zero hfresh]

/-! ## Well-formedness is preserved by every operation -/

theorem WF_register (s : AppState) (h : WF s) (n r rm pw : String) (b : Int) :
    WF (register_student s n r rm pw b).2 := by
  unfold register_student
  cases hfmt : rollPatternOk r with
  | false => simpa [hfmt] using h
  | true =>
    simp only [hfmt, Bool.not_true, Bool.false_eq_true, if_false]
    cases hdup : s.users.find? (fun u => u.username == pyUpper r) with
    | some u => exact h
    | none =>
      have hid : s.next_user_id ∉ s.users.map User.id :=
        not_mem_map_of_forall_lt h.users_id_lt
      have hun : pyUpper r ∉ s.users.map User.username :=
        not_mem_map_of_find?_beq_none hdup
      have g1 : ∀ nu : User, nu.id = s.next_user_id →
          ((s.users ++ [nu]).map User.id).Nodup := by
        intro nu hnu
        rw [List.map_append, List.map_singleton, hnu]
        exact nodup_append_singleton h.users_ids_nodup hid
      have g2 : ∀ nu : User, nu.username = pyUpper r →
          ((s.users ++ [nu]).map User.username).Nodup := by
        intro nu hnu
        rw [List.map_append, List.map_singleton, hnu]
        exact nodup_append_singleton h.usernames_nodup hun
      have g3 : ∀ nu : User, nu.id = s.next_user_id →
          ∀ u ∈ s.users ++ [nu], u.id < s.next_user_id + 1 := by
        intro nu hnu u hu
        rcases List.mem_append.1 hu with hu | hu
        · exact Nat.lt_succ_of_lt (h.users_id_lt u hu)
        · rcases List.mem_singleton.1 hu with rfl
          rw [hnu]
          exact Nat.lt_succ_self _
      have g4 : ∀ t ∈ s.transactions, t.user_id < s.next_user_id + 1 :=
        fun t ht => Nat.lt_succ_of_lt (h.trans_user_lt t ht)
      by_cases hb : b > 0
      · rw [if_pos hb]
        refine ⟨g1 _ rfl, g2 _ rfl, g3 _ rfl, ?_, h.meals_ids_nodup,
          h.meals_id_lt, h.att_ids_nodup, h.att_id_lt,
          h.refund_ids_nodup, h.refund_id_lt⟩
        intro t ht
        rcases List.mem_append.1 ht with ht | ht
        · exact g4 t ht
        · rcases List.mem_singleton.1 ht with rfl
          exact Nat.lt_succ_self _
      · rw [if_neg hb]
        exact ⟨g1 _ rfl, g2 _ rfl, g3 _ rfl, g4, h.meals_ids_nodup,
          h.meals_id_lt, h.att_ids_nodup, h.att_id_lt,
          h.refund_ids_nodup, h.refund_id_lt⟩

theorem WF_update_users (s : AppState) (h : WF s) {p : User → Bool}
    {f : User → User} (hfid : ∀ u, (f u).id = u.id)
    (hfun : ∀ u, (f u).username = u.username) :
    WF { s with users := updateFirst p f s.users } := by
  refine ⟨?_, ?_, ?_, h.trans_user_lt, h.meals_ids_nodup, h.meals_id_lt,
    h.att_ids_nodup, h.att_id_lt, h.refund_ids_nodup, h.refund_id_lt⟩
  · rw [updateFirst_map_eq hfid]
    exact h.users_ids_nodup
  · rw [updateFirst_map_eq hfun]
    exact h.usernames_nodup
  · intro u hu
    rcases mem_updateFirst hu with hu | ⟨b, hb, _, rfl⟩
    · exact h.users_id_lt u hu
    · rw [hfid]
      exact h.users_id_lt b hb

theorem WF_update_users_append_trans (s : AppState) (h : WF s)
    {p : User → Bool} {f : User → User} (hfid : ∀ u, (f u).id = u.id)
    (hfun : ∀ u, (f u).username = u.username) {t : WalletTransaction}
    (ht : t.user_id < s.next_user_id) :
    WF { s with users := updateFirst p f s.users,
                transactions := s.transactions ++ [t] } := by
  refine ⟨?_, ?_, ?_, ?_, h.meals_ids_nodup, h.meals_id_lt,
    h.att_ids_nodup, h.att_id_lt, h.refund_ids_nodup, h.refund_id_lt⟩
  · rw [updateFirst_map_eq hfid]
    exact h.users_ids_nodup
  · rw [updateFirst_map_eq hfun]
    exact h.usernames_nodup
  · intro u hu
    rcases mem_updateFirst hu with hu | ⟨b, hb, _, rfl⟩
    · exact h.users_id_lt u hu
    · rw [hfid]
      exact h.users_id_lt b hb
  · intro t' ht'
    rcases List.mem_append.1 ht' with ht' | ht'
    · exact h.trans_user_lt t' ht'
    · rcases List.mem_singleton.1 ht' with rfl
      exact ht

theorem WF_update_meals (s : AppState) (h : WF s) {p : Meal → Bool}
    {f : Meal → Meal} (hfid : ∀ m, (f m).id = m.id) :
    WF { s with meals := updateFirst p f s.meals } := by
  refine ⟨h.users_ids_nodup, h.usernames_nodup, h.users_id_lt, h.trans_user_lt,
    ?_, ?_, h.att_ids_nodup, h.att_id_lt, h.refund_ids_nodup, h.refund_id_lt⟩
  · rw [updateFirst_map_eq hfid]
    exact h.meals_ids_nodup
  · intro m hm
    rcases mem_updateFirst hm with hm | ⟨b, hb, _, rfl⟩
    · exact h.meals_id_lt m hm
    · rw [hfid]
      exact h.meals_id_lt b hb

theorem WF_add_balance (s : AppState) (h : WF s) (i : Nat) (a : Int) :
    WF (add_balance s i a).2 := by
  unfold add_balance
  cases hfind : s.users.find? (fun u => u.id == i) with
  | none => exact h
  | some student =>
    refine WF_update_users_append_trans s h ?_ ?_ ?_
    · intro u
      rfl
    · intro u
      rfl
    · exact h.users_id_lt student (List.mem_of_find?_eq_some hfind)

theorem WF_api_add_balance (s : AppState) (h : WF s) (i : Nat) (a : Int) :
    WF (api_add_balance s i a).2 := by
  unfold api_add_balance
  by_cases ha : a ≤ 0
  · rw [if_pos ha]
    exact h
  · rw [if_neg ha]
    cases hfind : s.users.find? (fun u => u.id == i) with
    | none => exact h
    | some student =>
      refine WF_update_users_append_trans s h ?_ ?_ ?_
      · intro u
        rfl
      · intro u
        rfl
      · exact h.users_id_lt student (List.mem_of_find?_eq_some hfind)

theorem WF_manage_meals (s : AppState) (h : WF s) (d : Nat) (ty : String)
    (p : Int) (mn : String) : WF (manage_meals s d ty p mn).2 := by
  unfold manage_meals
  cases hfind : s.meals.find? (fun m => m.mdate == d && m.meal_type == ty) with
  | some m => exact h
  | none =>
    refine ⟨h.users_ids_nodup, h.usernames_nodup, h.users_id_lt,
      h.trans_user_lt, ?_, ?_, h.att_ids_nodup, h.att_id_lt,
      h.refund_ids_nodup, h.refund_id_lt⟩
    · rw [List.map_append, List.map_singleton]
      exact nodup_append_singleton h.meals_ids_nodup
        (not_mem_map_of_forall_lt h.meals_id_lt)
    · intro m hm
      rcases List.mem_append.1 hm with hm | hm
      · exact Nat.lt_succ_of_lt (h.meals_id_lt m hm)
      · rcases List.mem_singleton.1 hm with rfl
        exact Nat.lt_succ_self _

theorem WF_edit_meal (s : AppState) (h : WF s) (i d : Nat) (ty : String)
    (p : Int) (mn : String) (act : Bool) : WF (edit_meal s i d ty p mn act).2 := by
  unfold edit_meal
  cases hfind : s.meals.find? (fun m => m.id == i) with
  | none => exact h
  | some m =>
    cases hdup : s.meals.find? (fun m =>
        m.mdate == d && m.meal_type == ty && !(m.id == i)) with
    | some m2 => exact h
    | none => exact WF_update_meals s h (fun m => rfl)

theorem WF_delete_meal (s : AppState) (h : WF s) (i : Nat) :
    WF (delete_meal s i).2 := by
  unfold delete_meal
  cases hfind : s.meals.find? (fun m => m.id == i) with
  | none => exact h
  | some m =>
    dsimp only
    by_cases hcnt : s.attendances.countP (fun a => a.meal_id == m.id) > 0
    · rw [if_pos hcnt]
      exact h
    · rw [if_neg hcnt]
      have hsub : List.Sublist (s.meals.eraseP (fun m => m.id == i)) s.meals :=
        List.eraseP_sublist s.meals
      refine ⟨h.users_ids_nodup, h.usernames_nodup, h.users_id_lt,
        h.trans_user_lt, ?_, ?_, h.att_ids_nodup, h.att_id_lt,
        h.refund_ids_nodup, h.refund_id_lt⟩
      · exact (hsub.map Meal.id).nodup h.meals_ids_nodup
      · exact fun m hm => h.meals_id_lt m (hsub.subset hm)

theorem WF_toggle_meal (s : AppState) (h : WF s) (i : Nat)
    (act : Option Bool) : WF (toggle_meal s i act).2 := by
  unfold toggle_meal
  cases hfind : s.meals.find? (fun m => m.id == i) with
  | none => exact h
  | some m => exact WF_update_meals s h (fun m => rfl)

theorem WF_sweep (s : AppState) (h : WF s) (today : Nat) :
    WF (deactivate_past_meals s today) := by
  unfold deactivate_past_meals
  refine ⟨h.users_ids_nodup, h.usernames_nodup, h.users_id_lt,
    h.trans_user_lt, ?_, ?_, h.att_ids_nodup, h.att_id_lt,
    h.refund_ids_nodup, h.refund_id_lt⟩
  all_goals
    have hid : ∀ m : Meal,
        (if m.mdate < today && m.is_active then { m with is_active := false }
         else m).id = m.id := by
      intro m
      by_cases hc : (m.mdate < today && m.is_active) = true
      · rw [if_pos hc]
      · rw [if_neg hc]
  · rw [map_map_id_eq hid]
    exact h.meals_ids_nodup
  · intro m hm
    rcases List.mem_map.1 hm with ⟨m0, hm0, rfl⟩
    rw [hid m0]
    exact h.meals_id_lt m0 hm0

theorem WF_edit_student (s : AppState) (h : WF s) (i : Nat) (n rm : String)
    (pw : Option String) : WF (edit_student s i n rm pw).2 := by
  unfold edit_student
  cases hfind : s.users.find? (fun u => u.id == i) with
  | none => exact h
  | some student =>
    by_cases hrole : (student.role == "student") = true
    · simp only [hrole, Bool.not_true, Bool.false_eq_true, if_false]
      refine WF_update_users s h ?_ ?_ <;> intro u <;> cases pw <;> rfl
    · simp only [Bool.not_eq_true] at hrole
      simp only [hrole, Bool.not_false, if_true]
      exact h

theorem WF_delete_student (s : AppState) (h : WF s) (i : Nat) :
    WF (delete_student s i).2 := by
  unfold delete_student
  cases hfind : s.users.find? (fun u => u.id == i) with
  | none => exact h
  | some student =>
    by_cases hrole : (student.role == "student") = true
    · simp only [hrole, Bool.not_true, Bool.false_eq_true, if_false]
      exact WF_update_users s h (fun u => rfl) (fun u => rfl)
    · simp only [Bool.not_eq_true] at hrole
      simp only [hrole, Bool.not_false, if_true]
      exact h

theorem WF_toggle_student (s : AppState) (h : WF s) (i : Nat) :
    WF (toggle_student_status s i).2 := by
  unfold toggle_student_status
  cases hfind : s.users.find? (fun u => u.id == i) with
  | none => exact h
  | some student =>
    by_cases hrole : (student.role == "student") = true
    · simp only [hrole, Bool.not_true, Bool.false_eq_true, if_false]
      exact WF_update_users s h (fun u => rfl) (fun u => rfl)
    · simp only [Bool.not_eq_true] at hrole
      simp only [hrole, Bool.not_false, if_true]
      exact h

theorem WF_process_scan (s : AppState) (h : WF s) (roll : String)
    (mid now : Nat) : WF (process_scan s roll mid now).2 := by
  unfold process_scan
  cases hstud : s.users.find? (fun u => u.username == roll && u.role == "student") with
  | none => exact h
  | some student =>
    dsimp only
    cases hact : student.is_active with
    | false => simp only [hact, Bool.not_false, if_true]; exact h
    | true =>
      simp only [hact, Bool.not_true, Bool.false_eq_true, if_false]
      cases hmeal : s.meals.find? (fun m => m.id == mid) with
      | none => exact h
      | some meal =>
        dsimp only
        cases hatt : s.attendances.find? (fun a =>
            a.user_id == student.id && a.meal_id == meal.id) with
        | some a => exact h
        | none =>
          dsimp only
          by_cases hbal : student.wallet_balance < meal.price
          · rw [if_pos hbal]
            exact h
          · rw [if_neg hbal]
            dsimp only
            have hfid : ∀ u : User,
                ({ u with wallet_balance := u.wallet_balance - meal.price } : User).id
                  = u.id := fun u => rfl
            have hfun : ∀ u : User,
                ({ u with wallet_balance := u.wallet_balance - meal.price } : User).username
                  = u.username := fun u => rfl
            refine ⟨?_, ?_, ?_, ?_, h.meals_ids_nodup, h.meals_id_lt, ?_, ?_,
              h.refund_ids_nodup, h.refund_id_lt⟩
            · rw [updateFirst_map_eq hfid]
              exact h.users_ids_nodup
            · rw [updateFirst_map_eq hfun]
              exact h.usernames_nodup
            · intro u hu
              rcases mem_updateFirst hu with hu | ⟨b, hb, _, rfl⟩
              · exact h.users_id_lt u hu
              · exact h.users_id_lt b hb
            · intro t ht
              rcases List.mem_append.1 ht with ht | ht
              · exact h.trans_user_lt t ht
              · rcases List.mem_singleton.1 ht with rfl
                exact h.users_id_lt student (List.mem_of_find?_eq_some hstud)
            · rw [List.map_append, List.map_singleton]
              exact nodup_append_singleton h.att_ids_nodup
                (not_mem_map_of_forall_lt h.att_id_lt)
            · intro a ha
              rcases List.mem_append.1 ha with ha | ha
              · exact Nat.lt_succ_of_lt (h.att_id_lt a ha)
              · rcases List.mem_singleton.1 ha with rfl
                exact Nat.lt_succ_self _

theorem WF_request_refund (s : AppState) (h : WF s) (cid aid : Nat)
    (reason : String) (now : Nat) : WF (request_refund s cid aid reason now).2 := by
  unfold request_refund
  cases hc : s.users.find? (fun u => u.id == cid) with
  | none => exact h
  | some caller =>
    dsimp only
    by_cases hrole : (caller.role == "student") = true
    · simp only [hrole, Bool.not_true, Bool.false_eq_true, if_false]
      cases hatt : s.attendances.find? (fun a => a.id == aid) with
      | none => exact h
      | some attendance =>
        dsimp only
        by_cases hown : (attendance.user_id == caller.id) = true
        · simp only [hown, Bool.not_true, Bool.false_eq_true, if_false]
          cases hdup : s.refund_requests.find? (fun r => r.attendance_id == aid) with
          | some r => exact h
          | none =>
            dsimp only
            by_cases hwin : now - attendance.scanned_at > refundWindow
            · rw [if_pos hwin]
              exact h
            · rw [if_neg hwin]
              refine ⟨h.users_ids_nodup, h.usernames_nodup, h.users_id_lt,
                h.trans_user_lt, h.meals_ids_nodup, h.meals_id_lt,
                h.att_ids_nodup, h.att_id_lt, ?_, ?_⟩
              · rw [List.map_append, List.map_singleton]
                exact nodup_append_singleton h.refund_ids_nodup
                  (not_mem_map_of_forall_lt h.refund_id_lt)
              · intro r hr
                rcases List.mem_append.1 hr with hr | hr
                · exact Nat.lt_succ_of_lt (h.refund_id_lt r hr)
                · rcases List.mem_singleton.1 hr with rfl
                  exact Nat.lt_succ_self _
        · simp only [Bool.not_eq_true] at hown
          simp only [hown, Bool.not_false, if_true]
          exact h
    · simp only [Bool.not_eq_true] at hrole
      simp only [hrole, Bool.not_false, if_true]
      exact h

theorem WF_process_refund (s : AppState) (h : WF s) (rid : Nat)
    (action remarks : String) (now : Nat) :
    WF (process_refund s rid action remarks now).2 := by
  unfold process_refund
  cases hr : s.refund_requests.find? (fun r => r.id == rid) with
  | none => exact h
  | some rr =>
    dsimp only
    by_cases hst : (rr.status == "pending") = true
    · simp only [hst, Bool.not_true, Bool.false_eq_true, if_false]
      by_cases hact : (action == "approve") = true
      · simp only [hact, if_true]
        cases hu : s.users.find? (fun u => u.id == rr.user_id) with
        | none => exact h
        | some student =>
          dsimp only
          have hfid : ∀ u : User,
              ({ u with wallet_balance := u.wallet_balance + rr.amount } : User).id
                = u.id := fun u => rfl
          have hfun : ∀ u : User,
              ({ u with wallet_balance := u.wallet_balance + rr.amount } : User).username
                = u.username := fun u => rfl
          have hrid : ∀ r : RefundRequest,
              ({ r with status := "approved", admin_remarks := some remarks,
                        processed_at := some now } : RefundRequest).id = r.id :=
            fun r => rfl
          refine ⟨?_, ?_, ?_, ?_, h.meals_ids_nodup, h.meals_id_lt,
            h.att_ids_nodup, h.att_id_lt, ?_, ?_⟩
          · rw [updateFirst_map_eq hfid]
            exact h.users_ids_nodup
          · rw [updateFirst_map_eq hfun]
            exact h.usernames_nodup
          · intro u hu2
            rcases mem_updateFirst hu2 with hu2 | ⟨b, hb, _, rfl⟩
            · exact h.users_id_lt u hu2
            · exact h.users_id_lt b hb
          · intro t ht
            rcases List.mem_append.1 ht with ht | ht
            · exact h.trans_user_lt t ht
            · rcases List.mem_singleton.1 ht with rfl
              exact h.users_id_lt student (List.mem_of_find?_eq_some hu)
          · rw [updateFirst_map_eq hrid]
            exact h.refund_ids_nodup
          · intro r hr2
            rcases mem_updateFirst hr2 with hr2 | ⟨b, hb, _, rfl⟩
            · exact h.refund_id_lt r hr2
            · exact h.refund_id_lt b hb
      · simp only [hact, Bool.false_eq_true, if_false]
        by_cases hrej : (action == "reject") = true
        · simp only [hrej, if_true]
          have hrid : ∀ r : RefundRequest,
              ({ r with status := "rejected", admin_remarks := some remarks,
                        processed_at := some now } : RefundRequest).id = r.id :=
            fun r => rfl
          refine ⟨h.users_ids_nodup, h.usernames_nodup, h.users_id_lt,
            h.trans_user_lt, h.meals_ids_nodup, h.meals_id_lt,
            h.att_ids_nodup, h.att_id_lt, ?_, ?_⟩
          · rw [updateFirst_map_eq hrid]
            exact h.refund_ids_nodup
          · intro r hr2
            rcases mem_updateFirst hr2 with hr2 | ⟨b, hb, _, rfl⟩
            · exact h.refund_id_lt r hr2
            · exact h.refund_id_lt b hb
        · simp only [hrej, Bool.false_eq_true, if_false]
          exact h
    · simp only [Bool.not_eq_true] at hst
      simp only [hst, Bool.not_false, if_true]
      exact h

/-- Every operation preserves database well-formedness. -/
theorem WF_applyOp (s : AppState) (op : Op) (h : WF s) : WF (applyOp s op) := by
  cases op with
  | register n r rm pw b => exact WF_register s h n r rm pw b
  | addBalance i a => exact WF_add_balance s h i a
  | apiAddBalance i a => exact WF_api_add_balance s h i a
  | createMeal d ty p mn => exact WF_manage_meals s h d ty p mn
  | editMeal i d ty p mn act => exact WF_edit_meal s h i d ty p mn act
  | deleteMeal i => exact WF_delete_meal s h i
  | toggleMeal i act => exact WF_toggle_meal s h i act
  | sweepMeals today => exact WF_sweep s h today
  | editStudent i n rm pw => exact WF_edit_student s h i n rm pw
  | deleteStudent i => exact WF_delete_student s h i
  | toggleStudent i => exact WF_toggle_student s h i
  | scan r m now => exact WF_process_scan s h r m now
  | refundRequest c a rsn now => exact WF_request_refund s h c a rsn now
  | refundResolve i act rem now => exact WF_process_refund s h i act rem now

/-! ## The ledger invariant is preserved by every operation
(registration restricted to nonnegative opening balances) -/

theorem ledgerInvOn_append_entry {users : List User}
    {ts : List WalletTransaction} {nu : User} {t : WalletTransaction}
    (hold : ∀ v ∈ users, v.id ≠ nu.id)
    (hinv : ledgerInvOn users ts)
    (ht1 : t.user_id = nu.id)
    (ht2 : t.balance_after = nu.wallet_balance) :
    ledgerInvOn (users ++ [nu]) (ts ++ [t]) := by
  intro v hv
  rcases List.mem_append.1 hv with hv | hv
  · rw [ledgerBalanceL_append_ne (by rw [ht1]; exact fun hc => hold v hv hc.symm)]
    exact hinv v hv
  · rcases List.mem_singleton.1 hv with rfl
    rw [ledgerBalanceL_append_self ht1, ht2]

theorem ledgerInv_register (s : AppState) (hwf : WF s) (hinv : ledgerInv s)
    (n r rm pw : String) (b : Int) (hb : 0 ≤ b) :
    ledgerInv (register_student s n r rm pw b).2 := by
  unfold register_student
  cases hfmt : rollPatternOk r with
  | false => simpa [hfmt] using hinv
  | true =>
    simp only [hfmt, Bool.not_true, Bool.false_eq_true, if_false]
    cases hdup : s.users.find? (fun u => u.username == pyUpper r) with
    | some u => exact hinv
    | none =>
      have hold : ∀ v ∈ s.users, v.id ≠ s.next_user_id :=
        fun v hv => Nat.ne_of_lt (hwf.users_id_lt v hv)
      have hfresh : ∀ t ∈ s.transactions, t.user_id ≠ s.next_user_id :=
        fun t ht => Nat.ne_of_lt (hwf.trans_user_lt t ht)
      by_cases hpos : b > 0
      · rw [if_pos hpos]
        exact ledgerInvOn_append_entry hold hinv rfl rfl
      · rw [if_neg hpos]
        refine ledgerInvOn_append_fresh hfresh hinv ?_
        exact le_antisymm (not_lt.1 hpos) hb

theorem ledgerInv_add_balance (s : AppState) (hwf : WF s)
    (hinv : ledgerInv s) (i : Nat) (a : Int) :
    ledgerInv (add_balance s i a).2 := by
  unfold add_balance
  cases hfind : s.users.find? (fun u => u.id == i) with
  | none => exact hinv
  | some student =>
    refine ledgerInvOn_step hfind hwf.users_ids_nodup hinv ?_ ?_ ?_
    · exact fun u => rfl
    · rfl
    · rfl

theorem ledgerInv_api_add_balance (s : AppState) (hwf : WF s)
    (hinv : ledgerInv s) (i : Nat) (a : Int) :
    ledgerInv (api_add_balance s i a).2 := by
  unfold api_add_balance
  by_cases ha : a ≤ 0
  · rw [if_pos ha]
    exact hinv
  · rw [if_neg ha]
    cases hfind : s.users.find? (fun u => u.id == i) with
    | none => exact hinv
    | some student =>
      refine ledgerInvOn_step hfind hwf.users_ids_nodup hinv ?_ ?_ ?_
      · exact fun u => rfl
      · rfl
      · rfl

theorem ledgerInv_manage_meals (s : AppState) (hinv : ledgerInv s)
    (d : Nat) (ty : String) (p : Int) (mn : String) :
    ledgerInv (manage_meals s d ty p mn).2 := by
  unfold manage_meals
  cases hfind : s.meals.find? (fun m => m.mdate == d && m.meal_type == ty) with
  | some m => exact hinv
  | none => exact hinv

theorem ledgerInv_edit_meal (s : AppState) (hinv : ledgerInv s) (i d : Nat)
    (ty : String) (p : Int) (mn : String) (act : Bool) :
    ledgerInv (edit_meal s i d ty p mn act).2 := by
  unfold edit_meal
  cases hfind : s.meals.find? (fun m => m.id == i) with
  | none => exact hinv
  | some m =>
    cases hdup : s.meals.find? (fun m =>
        m.mdate == d && m.meal_type == ty && !(m.id == i)) with
    | some m2 => exact hinv
    | none => exact hinv

theorem ledgerInv_delete_meal (s : AppState) (hinv : ledgerInv s) (i : Nat) :
    ledgerInv (delete_meal s i).2 := by
  unfold delete_meal
  cases hfind : s.meals.find? (fun m => m.id == i) with
  | none => exact hinv
  | some m =>
    dsimp only
    by_cases hcnt : s.attendances.countP (fun a => a.meal_id == m.id) > 0
    · rw [if_pos hcnt]
      exact hinv
    · rw [if_neg hcnt]
      exact hinv

theorem ledgerInv_toggle_meal (s : AppState) (hinv : ledgerInv s) (i : Nat)
    (act : Option Bool) : ledgerInv (toggle_meal s i act).2 := by
  unfold toggle_meal
  cases hfind : s.meals.find? (fun m => m.id == i) with
  | none => exact hinv
  | some m => exact hinv

theorem ledgerInv_sweep (s : AppState) (hinv : ledgerInv s) (today : Nat) :
    ledgerInv (deactivate_past_meals s today) := hinv

theorem ledgerInv_edit_student (s : AppState) (hinv : ledgerInv s) (i : Nat)
    (n rm : String) (pw : Option String) :
    ledgerInv (edit_student s i n rm pw).2 := by
  unfold edit_student
  cases hfind : s.users.find? (fun u => u.id == i) with
  | none => exact hinv
  | some student =>
    by_cases hrole : (student.role == "student") = true
    · simp only [hrole, Bool.not_true, Bool.false_eq_true, if_false]
      refine ledgerInvOn_update_invariant ?_ ?_ hinv
      · intro u
        cases pw <;> rfl
      · intro u
        cases pw <;> rfl
    · simp only [Bool.not_eq_true] at hrole
      simp only [hrole, Bool.not_false, if_true]
      exact hinv

theorem ledgerInv_delete_student (s : AppState) (hinv : ledgerInv s)
    (i : Nat) : ledgerInv (delete_student s i).2 := by
  unfold delete_student
  cases hfind : s.users.find? (fun u => u.id == i) with
  | none => exact hinv
  | some student =>
    by_cases hrole : (student.role == "student") = true
    · simp only [hrole, Bool.not_true, Bool.false_eq_true, if_false]
      refine ledgerInvOn_update_invariant ?_ ?_ hinv
      · exact fun u => rfl
      · exact fun u => rfl
    · simp only [Bool.not_eq_true] at hrole
      simp only [hrole, Bool.not_false, if_true]
      exact hinv

theorem ledgerInv_toggle_student (s : AppState) (hinv : ledgerInv s)
    (i : Nat) : ledgerInv (toggle_student_status s i).2 := by
  unfold toggle_student_status
  cases hfind : s.users.find? (fun u => u.id == i) with
  | none => exact hinv
  | some student =>
    by_cases hrole : (student.role == "student") = true
    · simp only [hrole, Bool.not_true, Bool.false_eq_true, if_false]
      refine ledgerInvOn_update_invariant ?_ ?_ hinv
      · exact fun u => rfl
      · exact fun u => rfl
    · simp only [Bool.not_eq_true] at hrole
      simp only [hrole, Bool.not_false, if_true]
      exact hinv

theorem ledgerInv_process_scan (s : AppState) (hwf : WF s)
    (hinv : ledgerInv s) (roll : String) (mid now : Nat) :
    ledgerInv (process_scan s roll mid now).2 := by
  unfold process_scan
  cases hstud : s.users.find? (fun u => u.username == roll && u.role == "student") with
  | none => exact hinv
  | some student =>
    dsimp only
    cases hact : student.is_active with
    | false => simp only [hact, Bool.not_false, if_true]; exact hinv
    | true =>
      simp only [hact, Bool.not_true, Bool.false_eq_true, if_false]
      cases hmeal : s.meals.find? (fun m => m.id == mid) with
      | none => exact hinv
      | some meal =>
        dsimp only
        cases hatt : s.attendances.find? (fun a =>
            a.user_id == student.id && a.meal_id == meal.id) with
        | some a => exact hinv
        | none =>
          dsimp only
          by_cases hbal : student.wallet_balance < meal.price
          · rw [if_pos hbal]
            exact hinv
          · rw [if_neg hbal]
            refine ledgerInvOn_step hstud hwf.users_ids_nodup hinv ?_ ?_ ?_
            · exact fun u => rfl
            · rfl
            · rfl

theorem ledgerInv_request_refund (s : AppState) (hinv : ledgerInv s)
    (cid aid : Nat) (reason : String) (now : Nat) :
    ledgerInv (request_refund s cid aid reason now).2 := by
  unfold request_refund
  cases hc : s.users.find? (fun u => u.id == cid) with
  | none => exact hinv
  | some caller =>
    dsimp only
    by_cases hrole : (caller.role == "student") = true
    · simp only [hrole, Bool.not_true, Bool.false_eq_true, if_false]
      cases hatt : s.attendances.find? (fun a => a.id == aid) with
      | none => exact hinv
      | some attendance =>
        dsimp only
        by_cases hown : (attendance.user_id == caller.id) = true
        · simp only [hown, Bool.not_true, Bool.false_eq_true, if_false]
          cases hdup : s.refund_requests.find? (fun r => r.attendance_id == aid) with
          | some r => exact hinv
          | none =>
            dsimp only
            by_cases hwin : now - attendance.scanned_at > refundWindow
            · rw [if_pos hwin]
              exact hinv
            · rw [if_neg hwin]
              exact hinv
        · simp only [Bool.not_eq_true] at hown
          simp only [hown, Bool.not_false, if_true]
          exact hinv
    · simp only [Bool.not_eq_true] at hrole
      simp only [hrole, Bool.not_false, if_true]
      exact hinv

theorem ledgerInv_process_refund (s : AppState) (hwf : WF s)
    (hinv : ledgerInv s) (rid : Nat) (action remarks : String) (now : Nat) :
    ledgerInv (process_refund s rid action remarks now).2 := by
  unfold process_refund
  cases hr : s.refund_requests.find? (fun r => r.id == rid) with
  | none => exact hinv
  | some rr =>
    dsimp only
    by_cases hst : (rr.status == "pending") = true
    · simp only [hst, Bool.not_true, Bool.false_eq_true, if_false]
      by_cases hact : (action == "approve") = true
      · simp only [hact, if_true]
        cases hu : s.users.find? (fun u => u.id == rr.user_id) with
        | none => exact hinv
        | some student =>
          refine ledgerInvOn_step hu hwf.users_ids_nodup hinv ?_ ?_ ?_
          · exact fun u => rfl
          · rfl
          · rfl
      · simp only [hact, Bool.false_eq_true, if_false]
        by_cases hrej : (action == "reject") = true
        · simp only [hrej, if_true]
          exact hinv
        · simp only [hrej, Bool.false_eq_true, if_false]
          exact hinv
    · simp only [Bool.not_eq_true] at hst
      simp only [hst, Bool.not_false, if_true]
      exact hinv

/-- Every admissible operation preserves the ledger invariant on
well-formed states. -/
theorem ledgerInv_applyOp (s : AppState) (op : Op) (hwf : WF s)
    (hinv : ledgerInv s) (hok : OpOK op) : ledgerInv (applyOp s op) := by
  cases op with
  | register n r rm pw b => exact ledgerInv_register s hwf hinv n r rm pw b hok
  | addBalance i a => exact ledgerInv_add_balance s hwf hinv i a
  | apiAddBalance i a => exact ledgerInv_api_add_balance s hwf hinv i a
  | createMeal d ty p mn => exact ledgerInv_manage_meals s hinv d ty p mn
  | editMeal i d ty p mn act => exact ledgerInv_edit_meal s hinv i d ty p mn act
  | deleteMeal i => exact ledgerInv_delete_meal s hinv i
  | toggleMeal i act => exact ledgerInv_toggle_meal s hinv i act
  | sweepMeals today => exact ledgerInv_sweep s hinv today
  | editStudent i n rm pw => exact ledgerInv_edit_student s hinv i n rm pw
  | deleteStudent i => exact ledgerInv_delete_student s hinv i
  | toggleStudent i => exact ledgerInv_toggle_student s hinv i
  | scan r m now => exact ledgerInv_process_scan s hwf hinv r m now
  | refundRequest c a rsn now => exact ledgerInv_request_refund s hinv c a rsn now
  | refundResolve i act rem now => exact ledgerInv_process_refund s hwf hinv i act rem now

/-- Well-formedness of the freshly initialized database. -/
theorem WF_initState : WF initState := by
  refine ⟨?_, ?_, ?_, ?_, ?_, ?_, ?_, ?_, ?_, ?_⟩ <;> decide

/-- Along any admissible run, states stay well-formed and satisfy the
ledger invariant. -/
theorem reachableOK_invariants {s : AppState} (h : ReachableOK s) :
    WF s ∧ ledgerInv s := by
  induction h with
  | init => exact ⟨WF_initState, by decide⟩
  | step hprev hok ih =>
    exact ⟨WF_applyOp _ _ ih.1, ledgerInv_applyOp _ _ ih.1 ih.2 hok⟩

/-! ## Which tables each operation leaves untouched -/

theorem register_student_atts_eq (s : AppState) (n r rm pw : String) (b : Int) :
    (register_student s n r rm pw b).2.attendances = s.attendances := by
  unfold register_student
  repeat' (first | rfl | split | dsimp only)

theorem register_student_refunds_eq (s : AppState) (n r rm pw : String) (b : Int) :
    (register_student s n r rm pw b).2.refund_requests = s.refund_requests := by
  unfold register_student
  repeat' (first | rfl | split | dsimp only)

theorem add_balance_atts_eq (s : AppState) (i : Nat) (a : Int) :
    (add_balance s i a).2.attendances = s.attendances := by
  unfold add_balance
  repeat' (first | rfl | split | dsimp only)

theorem add_balance_refunds_eq (s : AppState) (i : Nat) (a : Int) :
    (add_balance s i a).2.refund_requests = s.refund_requests := by
  unfold add_balance
  repeat' (first | rfl | split | dsimp only)

theorem api_add_balance_atts_eq (s : AppState) (i : Nat) (a : Int) :
    (api_add_balance s i a).2.attendances = s.attendances := by
  unfold api_add_balance
  repeat' (first | rfl | split | dsimp only)

theorem api_add_balance_refunds_eq (s : AppState) (i : Nat) (a : Int) :
    (api_add_balance s i a).2.refund_requests = s.refund_requests := by
  unfold api_add_balance
  repeat' (first | rfl | split | dsimp only)

theorem manage_meals_atts_eq (s : AppState) (d : Nat) (ty : String) (p : Int)
    (mn : String) : (manage_meals s d ty p mn).2.attendances = s.attendances := by
  unfold manage_meals
  repeat' (first | rfl | split | dsimp only)

theorem manage_meals_refunds_eq (s : AppState) (d : Nat) (ty : String) (p : Int)
    (mn : String) : (manage_meals s d ty p mn).2.refund_requests = s.refund_requests := by
  unfold manage_meals
  repeat' (first | rfl | split | dsimp only)

theorem edit_meal_atts_eq (s : AppState) (i d : Nat) (ty : String) (p : Int)
    (mn : String) (act : Bool) :
    (edit_meal s i d ty p mn act).2.attendances = s.attendances := by
  unfold edit_meal
  repeat' (first | rfl | split | dsimp only)

theorem edit_meal_refunds_eq (s : AppState) (i d : Nat) (ty : String) (p : Int)
    (mn : String) (act : Bool) :
    (edit_meal s i d ty p mn act).2.refund_requests = s.refund_requests := by
  unfold edit_meal
  repeat' (first | rfl | split | dsimp only)

theorem delete_meal_atts_eq (s : AppState) (i : Nat) :
    (delete_meal s i).2.attendances = s.attendances := by
  unfold delete_meal
  repeat' (first | rfl | split | dsimp only)

theorem delete_meal_refunds_eq (s : AppState) (i : Nat) :
    (delete_meal s i).2.refund_requests = s.refund_requests := by
  unfold delete_meal
  repeat' (first | rfl | split | dsimp only)

theorem toggle_meal_atts_eq (s : AppState) (i : Nat) (act : Option Bool) :
    (toggle_meal s i act).2.attendances = s.attendances := by
  unfold toggle_meal
  repeat' (first | rfl | split | dsimp only)

theorem toggle_meal_refunds_eq (s : AppState) (i : Nat) (act : Option Bool) :
    (toggle_meal s i act).2.refund_requests = s.refund_requests := by
  unfold toggle_meal
  repeat' (first | rfl | split | dsimp only)

theorem sweep_atts_eq (s : AppState) (today : Nat) :
    (deactivate_past_meals s today).attendances = s.attendances := rfl

theorem sweep_refunds_eq (s : AppState) (today : Nat) :
    (deactivate_past_meals s today).refund_requests = s.refund_requests := rfl

theorem edit_student_atts_eq (s : AppState) (i : Nat) (n rm : String)
    (pw : Option String) : (edit_student s i n rm pw).2.attendances = s.attendances := by
  unfold edit_student
  repeat' (first | rfl | split | dsimp only)

theorem edit_student_refunds_eq (s : AppState) (i : Nat) (n rm : String)
    (pw : Option String) :
    (edit_student s i n rm pw).2.refund_requests = s.refund_requests := by
  unfold edit_student
  repeat' (first | rfl | split | dsimp only)

theorem delete_student_atts_eq (s : AppState) (i : Nat) :
    (delete_student s i).2.attendances = s.attendances := by
  unfold delete_student
  repeat' (first | rfl | split | dsimp only)

theorem delete_student_refunds_eq (s : AppState) (i : Nat) :
    (delete_student s i).2.refund_requests = s.refund_requests := by
  unfold delete_student
  repeat' (first | rfl | split | dsimp only)

theorem toggle_student_atts_eq (s : AppState) (i : Nat) :
    (toggle_student_status s i).2.attendances = s.attendances := by
  unfold toggle_student_status
  repeat' (first | rfl | split | dsimp only)

theorem toggle_student_refunds_eq (s : AppState) (i : Nat) :
    (toggle_student_status s i).2.refund_requests = s.refund_requests := by
  unfold toggle_student_status
  repeat' (first | rfl | split | dsimp only)

theorem process_scan_refunds_eq (s : AppState) (roll : String) (mid now : Nat) :
    (process_scan s roll mid now).2.refund_requests = s.refund_requests := by
  unfold process_scan
  repeat' (first | rfl | split | dsimp only)

theorem request_refund_atts_eq (s : AppState) (cid aid : Nat) (reason : String)
    (now : Nat) : (request_refund s cid aid reason now).2.attendances = s.attendances := by
  unfold request_refund
  repeat' (first | rfl | split | dsimp only)

theorem process_refund_atts_eq (s : AppState) (rid : Nat) (act rem : String)
    (now : Nat) : (process_refund s rid act rem now).2.attendances = s.attendances := by
  unfold process_refund
  repeat' (first | rfl | split | dsimp only)

/-- Rows with equal primary keys are the same row, when keys are unique. -/
theorem eq_of_mem_nodup_id {α : Type} {g : α → Nat} {l : List α}
    (hnodup : (l.map g).Nodup) {x y : α} (hx : x ∈ l) (hy : y ∈ l)
    (h : g x = g y) : x = y :=
  List.inj_on_of_nodup_map hnodup hx hy h

/-! ## Branch equations for the scan and refund engines -/

theorem find?_append_of_none {α : Type} {p : α → Bool} {l1 l2 : List α}
    (h : l1.find? p = none) : (l1 ++ l2).find? p = l2.find? p := by
  induction l1 with
  | nil => rfl
  | cons a l ih =>
    by_cases hp : p a
    · rw [List.find?_cons_of_pos _ hp] at h
      exact absurd h (by simp)
    · rw [List.find?_cons_of_neg _ hp] at h
      rw [List.cons_append, List.find?_cons_of_neg _ hp]
      exact ih h

theorem process_scan_studentNotFound_eq (s : AppState) (roll : String)
    (mid now : Nat)
    (hstud : s.users.find? (fun u => u.username == roll && u.role == "student") = none) :
    process_scan s roll mid now = (.studentNotFound, s) := by
  unfold process_scan
  rw [hstud]

theorem process_scan_deactivated_eq (s : AppState) (roll : String)
    (mid now : Nat) (student : User)
    (hstud : s.users.find? (fun u => u.username == roll && u.role == "student")
      = some student)
    (hact : student.is_active = false) :
    process_scan s roll mid now = (.accountDeactivated, s) := by
  unfold process_scan
  rw [hstud]
  dsimp only
  rw [hact]
  rfl

theorem process_scan_mealNotFound_eq (s : AppState) (roll : String)
    (mid now : Nat) (student : User)
    (hstud : s.users.find? (fun u => u.username == roll && u.role == "student")
      = some student)
    (hact : student.is_active = true)
    (hmeal : s.meals.find? (fun m => m.id == mid) = none) :
    process_scan s roll mid now = (.mealNotFound, s) := by
  unfold process_scan
  rw [hstud]
  dsimp only
  rw [hact]
  simp only [Bool.not_true, Bool.false_eq_true, if_false]
  rw [hmeal]

theorem process_scan_alreadyScanned_eq (s : AppState) (roll : String)
    (mid now : Nat) (student : User) (meal : Meal) (a : Attendance)
    (hstud : s.users.find? (fun u => u.username == roll && u.role == "student")
      = some student)
    (hact : student.is_active = true)
    (hmeal : s.meals.find? (fun m => m.id == mid) = some meal)
    (hatt : s.attendances.find? (fun a2 =>
      a2.user_id == student.id && a2.meal_id == meal.id) = some a) :
    process_scan s roll mid now = (.alreadyScanned, s) := by
  unfold process_scan
  rw [hstud]
  dsimp only
  rw [hact]
  simp only [Bool.not_true, Bool.false_eq_true, if_false]
  rw [hmeal]
  dsimp only
  rw [hatt]

theorem process_scan_insufficient_eq (s : AppState) (roll : String)
    (mid now : Nat) (student : User) (meal : Meal)
    (hstud : s.users.find? (fun u => u.username == roll && u.role == "student")
      = some student)
    (hact : student.is_active = true)
    (hmeal : s.meals.find? (fun m => m.id == mid) = some meal)
    (hatt : s.attendances.find? (fun a2 =>
      a2.user_id == student.id && a2.meal_id == meal.id) = none)
    (hbal : student.wallet_balance < meal.price) :
    process_scan s roll mid now = (.insufficientBalance student.wallet_balance, s) := by
  unfold process_scan
  rw [hstud]
  dsimp only
  rw [hact]
  simp only [Bool.not_true, Bool.false_eq_true, if_false]
  rw [hmeal]
  dsimp only
  rw [hatt]
  dsimp only
  rw [if_pos hbal]

theorem process_scan_success_eq (s : AppState) (roll : String)
    (mid now : Nat) (student : User) (meal : Meal)
    (hstud : s.users.find? (fun u => u.username == roll && u.role == "student")
      = some student)
    (hact : student.is_active = true)
    (hmeal : s.meals.find? (fun m => m.id == mid) = some meal)
    (hatt : s.attendances.find? (fun a2 =>
      a2.user_id == student.id && a2.meal_id == meal.id) = none)
    (hbal : ¬student.wallet_balance < meal.price) :
    process_scan s roll mid now =
      (.success student.name meal.meal_type meal.price
        (student.wallet_balance - meal.price),
       { s with
         users := updateFirst (fun u => u.username == roll && u.role == "student")
           (fun u => { u with wallet_balance := u.wallet_balance - meal.price })
           s.users
         transactions := s.transactions ++
           [{ user_id := student.id, amount := -meal.price,
              transaction_type := "debit",
              description := pyCapitalize meal.meal_type ++ " on " ++ toString meal.mdate,
              balance_after := student.wallet_balance - meal.price }]
         attendances := s.attendances ++
           [{ id := s.next_attendance_id, user_id := student.id,
              meal_id := meal.id, amount_paid := meal.price, scanned_at := now }]
         next_attendance_id := s.next_attendance_id + 1 }) := by
  unfold process_scan
  rw [hstud]
  dsimp only
  rw [hact]
  simp only [Bool.not_true, Bool.false_eq_true, if_false]
  rw [hmeal]
  dsimp only
  rw [hatt]
  dsimp only
  rw [if_neg hbal]

theorem request_refund_unauthorized_eq (s : AppState) (cid aid : Nat)
    (reason : String) (now : Nat) (caller : User) (att : Attendance)
    (hcaller : s.users.find? (fun u => u.id == cid) = some caller)
    (hrole : caller.role = "student")
    (hatt : s.attendances.find? (fun a => a.id == aid) = some att)
    (hown : att.user_id ≠ caller.id) :
    request_refund s cid aid reason now = (.unauthorized, s) := by
  unfold request_refund
  rw [hcaller]
  dsimp only
  rw [hrole]
  simp only [beq_self_eq_true, Bool.not_true, Bool.false_eq_true, if_false]
  rw [hatt]
  dsimp only
  have hb : (att.user_id == caller.id) = false := by simpa using hown
  rw [hb]
  rfl

theorem request_refund_dup_eq (s : AppState) (cid aid : Nat)
    (reason : String) (now : Nat) (caller : User) (att : Attendance)
    (r0 : RefundRequest)
    (hcaller : s.users.find? (fun u => u.id == cid) = some caller)
    (hrole : caller.role = "student")
    (hatt : s.attendances.find? (fun a => a.id == aid) = some att)
    (hown : att.user_id = caller.id)
    (hdup : s.refund_requests.find? (fun r => r.attendance_id == aid) = some r0) :
    request_refund s cid aid reason now = (.alreadyRequested, s) := by
  unfold request_refund
  rw [hcaller]
  dsimp only
  rw [hrole]
  simp only [beq_self_eq_true, Bool.not_true, Bool.false_eq_true, if_false]
  rw [hatt]
  dsimp only
  rw [hown]
  simp only [beq_self_eq_true, Bool.not_true, Bool.false_eq_true, if_false]
  rw [hdup]

theorem request_refund_expired_eq (s : AppState) (cid aid : Nat)
    (reason : String) (now : Nat) (caller : User) (att : Attendance)
    (hcaller : s.users.find? (fun u => u.id == cid) = some caller)
    (hrole : caller.role = "student")
    (hatt : s.attendances.find? (fun a => a.id == aid) = some att)
    (hown : att.user_id = caller.id)
    (hdup : s.refund_requests.find? (fun r => r.attendance_id == aid) = none)
    (hwin : now - att.scanned_at > refundWindow) :
    request_refund s cid aid reason now = (.windowExpired, s) := by
  unfold request_refund
  rw [hcaller]
  dsimp only
  rw [hrole]
  simp only [beq_self_eq_true, Bool.not_true, Bool.false_eq_true, if_false]
  rw [hatt]
  dsimp only
  rw [hown]
  simp only [beq_self_eq_true, Bool.not_true, Bool.false_eq_true, if_false]
  rw [hdup]
  dsimp only
  rw [if_pos hwin]

theorem request_refund_ok_eq (s : AppState) (cid aid : Nat)
    (reason : String) (now : Nat) (caller : User) (att : Attendance)
    (hcaller : s.users.find? (fun u => u.id == cid) = some caller)
    (hrole : caller.role = "student")
    (hatt : s.attendances.find? (fun a => a.id == aid) = some att)
    (hown : att.user_id = caller.id)
    (hdup : s.refund_requests.find? (fun r => r.attendance_id == aid) = none)
    (hwin : ¬now - att.scanned_at > refundWindow) :
    request_refund s cid aid reason now =
      (.ok, { s with
        refund_requests := s.refund_requests ++
          [{ id := s.next_refund_id, user_id := caller.id, attendance_id := aid,
             amount := att.amount_paid, reason := reason, status := "pending",
             admin_remarks := none, processed_at := none }]
        next_refund_id := s.next_refund_id + 1 }) := by
  unfold request_refund
  rw [hcaller]
  dsimp only
  rw [hrole]
  simp only [beq_self_eq_true, Bool.not_true, Bool.false_eq_true, if_false]
  rw [hatt]
  dsimp only
  rw [hown]
  simp only [beq_self_eq_true, Bool.not_true, Bool.false_eq_true, if_false]
  rw [hdup]
  dsimp only
  rw [if_neg hwin]

theorem process_refund_notPending_eq (s : AppState) (rid : Nat)
    (action remarks : String) (now : Nat) (rr : RefundRequest)
    (hr : s.refund_requests.find? (fun r => r.id == rid) = some rr)
    (hst : rr.status ≠ "pending") :
    process_refund s rid action remarks now = (.alreadyProcessed, s) := by
  unfold process_refund
  rw [hr]
  dsimp only
  have hb : (rr.status == "pending") = false := by simpa using hst
  rw [hb]
  rfl

theorem process_refund_approve_eq (s : AppState) (rid : Nat)
    (remarks : String) (now : Nat) (rr : RefundRequest) (student : User)
    (hr : s.refund_requests.find? (fun r => r.id == rid) = some rr)
    (hst : rr.status = "pending")
    (hu : s.users.find? (fun u => u.id == rr.user_id) = some student) :
    process_refund s rid "approve" remarks now =
      (.approved rr.amount,
       { s with
         users := updateFirst (fun u => u.id == rr.user_id)
           (fun u => { u with wallet_balance := u.wallet_balance + rr.amount })
           s.users
         transactions := s.transactions ++
           [{ user_id := student.id, amount := rr.amount,
              transaction_type := "credit", description := refundDescription s rr,
              balance_after := student.wallet_balance + rr.amount }]
         refund_requests := updateFirst (fun r => r.id == rid)
           (fun r => { r with status := "approved", admin_remarks := some remarks,
                              processed_at := some now }) s.refund_requests }) := by
  unfold process_refund
  rw [hr]
  dsimp only
  rw [hst]
  simp only [beq_self_eq_true, Bool.not_true, Bool.false_eq_true, if_false, if_true]
  rw [hu]

theorem process_refund_reject_eq (s : AppState) (rid : Nat)
    (remarks : String) (now : Nat) (rr : RefundRequest)
    (hr : s.refund_requests.find? (fun r => r.id == rid) = some rr)
    (hst : rr.status = "pending") :
    process_refund s rid "reject" remarks now =
      (.rejected,
       { s with
         refund_requests := updateFirst (fun r => r.id == rid)
           (fun r => { r with status := "rejected", admin_remarks := some remarks,
                              processed_at := some now }) s.refund_requests }) := by
  unfold process_refund
  rw [hr]
  dsimp only
  rw [hst]
  simp only [beq_self_eq_true, Bool.not_true, Bool.false_eq_true, if_false]
  rfl

theorem process_refund_invalid_eq (s : AppState) (rid : Nat)
    (action remarks : String) (now : Nat) (rr : RefundRequest)
    (hr : s.refund_requests.find? (fun r => r.id == rid) = some rr)
    (hst : rr.status = "pending")
    (ha1 : action ≠ "approve") (ha2 : action ≠ "reject") :
    process_refund s rid action remarks now = (.invalidAction, s) := by
  unfold process_refund
  rw [hr]
  dsimp only
  rw [hst]
  have hb1 : (action == "approve") = false := by simpa using ha1
  have hb2 : (action == "reject") = false := by simpa using ha2
  simp only [beq_self_eq_true, Bool.not_true, Bool.false_eq_true, if_false, hb1, hb2]

/-! ## Claims -/

/-- **C2**: if the five scan preconditions hold for `(accountCode, mealId)`
— in particular `wallet_balance ≥ meal.price`, the boundary
`wallet_balance = meal.price` included — then the scan succeeds, the
balance decreases by exactly `meal.price`, exactly one debit ledger entry
with `amount = -meal.price` and `balance_after = old − price` is appended,
and exactly one attendance with `amount_paid = meal.price` is created. -/
theorem claim_C2_scan_success_effects (s : AppState) (roll : String)
    (mid now : Nat) (student : User) (meal : Meal)
    (hstud : s.users.find? (fun u => u.username == roll && u.role == "student")
      = some student)
    (hact : student.is_active = true)
    (hmeal : s.meals.find? (fun m => m.id == mid) = some meal)
    (hatt : s.attendances.find? (fun a2 =>
      a2.user_id == student.id && a2.meal_id == meal.id) = none)
    (hbal : meal.price ≤ student.wallet_balance) :
    (process_scan s roll mid now).1
      = .success student.name meal.meal_type meal.price
          (student.wallet_balance - meal.price)
    ∧ balanceOf s roll = some student.wallet_balance
    ∧ balanceOf (process_scan s roll mid now).2 roll
      = some (student.wallet_balance - meal.price)
    ∧ (process_scan s roll mid now).2.transactions
      = s.transactions ++
        [{ user_id := student.id, amount := -meal.price,
           transaction_type := "debit",
           description := pyCapitalize meal.meal_type ++ " on " ++ toString meal.mdate,
           balance_after := student.wallet_balance - meal.price }]
    ∧ (process_scan s roll mid now).2.attendances
      = s.attendances ++
        [{ id := s.next_attendance_id, user_id := student.id,
           meal_id := meal.id, amount_paid := meal.price, scanned_at := now }] := by
  rw [process_scan_success_eq s roll mid now student meal hstud hact hmeal hatt
    (not_lt.2 hbal)]
  refine ⟨rfl, ?_, ?_, rfl, rfl⟩
  · unfold balanceOf
    rw [hstud]
    rfl
  · unfold balanceOf
    dsimp only
    rw [find?_updateFirst_self (fun u : User => u.username == roll && u.role == "student")
      (fun u : User => { u with wallet_balance := u.wallet_balance - meal.price })
      (fun u => rfl), hstud]
    rfl

/-- Witness for C2 at the spec's boundary: Eve's balance (50) exactly
equals the dinner price (50); the scan succeeds and the resulting balance
is 0. -/
theorem claim_C2_witness :
    demoDinner.price ≤ demoEve.wallet_balance
    ∧ (process_scan demoEveMeals "2024-EE-700" 0 500).1
      = ScanOutcome.success "Eve" "dinner" 50 0
    ∧ balanceOf (process_scan demoEveMeals "2024-EE-700" 0 500).2 "2024-EE-700"
      = some 0 := by
  have h := claim_C2_scan_success_effects demoEveMeals "2024-EE-700" 0 500
    demoEve demoDinner rfl rfl rfl rfl (by decide)
  exact ⟨by decide, h.1, h.2.2.1⟩

/-- **C9** (implicit): the scan engine never consults the meal's
`is_active` flag — for a meal that exists with `is_active = false` (e.g.
deactivated by the expired-meal sweep), a scan by an active student with
sufficient balance and no prior attendance succeeds and debits the
balance exactly as for an active meal. -/
theorem claim_C9_scan_ignores_meal_active (s : AppState) (roll : String)
    (mid now : Nat) (student : User) (meal : Meal)
    (hstud : s.users.find? (fun u => u.username == roll && u.role == "student")
      = some student)
    (hact : student.is_active = true)
    (hmeal : s.meals.find? (fun m => m.id == mid) = some meal)
    (hmact : meal.is_active = false)
    (hatt : s.attendances.find? (fun a2 =>
      a2.user_id == student.id && a2.meal_id == meal.id) = none)
    (hbal : meal.price ≤ student.wallet_balance) :
    (process_scan s roll mid now).1
      = .success student.name meal.meal_type meal.price
          (student.wallet_balance - meal.price)
    ∧ balanceOf (process_scan s roll mid now).2 roll
      = some (student.wallet_balance - meal.price)
    ∧ (process_scan s roll mid now).2.attendances
      = s.attendances ++
        [{ id := s.next_attendance_id, user_id := student.id,
           meal_id := meal.id, amount_paid := meal.price, scanned_at := now }] := by
  rw [process_scan_success_eq s roll mid now student meal hstud hact hmeal hatt
    (not_lt.2 hbal)]
  refine ⟨rfl, ?_, rfl⟩
  unfold balanceOf
  dsimp only
  rw [find?_updateFirst_self (fun u : User => u.username == roll && u.role == "student")
    (fun u : User => { u with wallet_balance := u.wallet_balance - meal.price })
    (fun u => rfl), hstud]
  rfl

/-- Witness for C9: after the sweep deactivated the day-10 lunch, Bob's
scan against it still succeeds and debits 50. -/
theorem claim_C9_witness :
    demoLunchOff.is_active = false
    ∧ (process_scan demoSwept "2024-CS-562" 0 1000).1
      = ScanOutcome.success "Bob" "lunch" 50 50
    ∧ balanceOf (process_scan demoSwept "2024-CS-562" 0 1000).2 "2024-CS-562"
      = some 50 := by
  have h := claim_C9_scan_ignores_meal_active demoSwept "2024-CS-562" 0 1000
    demoBob demoLunchOff rfl rfl rfl rfl rfl (by decide)
  exact ⟨rfl, h.1, h.2.1⟩

/-- **C8**: creating a meal whose `(date, meal-type)` equals an existing
meal's fails with the duplicate outcome and changes nothing; deleting a
meal referenced by at least one attendance fails with the
has-attendance outcome and deletes nothing. -/
theorem claim_C8_meal_conflicts (s : AppState) (d : Nat) (ty : String)
    (p : Int) (mn : String) (i : Nat) (meal : Meal) :
    ((∃ m0 ∈ s.meals, m0.mdate = d ∧ m0.meal_type = ty) →
      manage_meals s d ty p mn = (.duplicate, s))
    ∧ (s.meals.find? (fun m => m.id == i) = some meal →
        (∃ a ∈ s.attendances, a.meal_id = meal.id) →
        delete_meal s i = (.hasAttendance, s)) := by
  constructor
  · rintro ⟨m0, hm0, hd, hty⟩
    unfold manage_meals
    cases hfind : s.meals.find? (fun m => m.mdate == d && m.meal_type == ty) with
    | some m => rfl
    | none =>
      rw [List.find?_eq_none] at hfind
      exact absurd (by simp [hd, hty]) (hfind m0 hm0)
  · rintro hfind ⟨a, ha, hmid⟩
    unfold delete_meal
    rw [hfind]
    dsimp only
    rw [if_pos]
    exact List.countP_pos_iff.2 ⟨a, ha, by simp [hmid]⟩

/-- Witness for C8: re-adding a day-10 lunch is refused; deleting the
scanned lunch is refused; the state is unchanged both times. -/
theorem claim_C8_witness :
    manage_meals demoScan 10 "lunch" 99 "soup" = (.duplicate, demoScan)
    ∧ delete_meal demoScan 0 = (.hasAttendance, demoScan) := by
  have h := claim_C8_meal_conflicts demoScan 10 "lunch" 99 "soup" 0 demoLunch
  refine ⟨h.1 ⟨demoLunch, by decide, rfl, rfl⟩, h.2 rfl ?_⟩
  exact ⟨{ id := 0, user_id := 1, meal_id := 0, amount_paid := 50,
           scanned_at := 1000 }, by decide, rfl⟩

/-- **C10** (implicit): registration appends an initial credit ledger
entry with `amount = balance_after = initial_balance` if and only if the
supplied opening balance is strictly positive; for every opening balance
`≤ 0` the student is created with `wallet_balance` set to that value and
an empty ledger history. -/
theorem claim_C10_register_initial_entry_iff_positive (s : AppState)
    (hwf : WF s) (n r rm pw : String) (b : Int)
    (hfmt : rollPatternOk r = true)
    (hdup : s.users.find? (fun u => u.username == pyUpper r) = none) :
    (register_student s n r rm pw b).1 = .ok s.next_user_id
    ∧ (register_student s n r rm pw b).2.users
      = s.users ++
        [{ id := s.next_user_id, username := pyUpper r,
           password_hash := pw ++ "#hashed", name := n, role := "student",
           room_number := rm, wallet_balance := b, is_active := true }]
    ∧ (0 < b → (register_student s n r rm pw b).2.transactions
        = s.transactions ++
          [{ user_id := s.next_user_id, amount := b,
             transaction_type := "credit",
             description := "Initial wallet balance", balance_after := b }])
    ∧ (b ≤ 0 → (register_student s n r rm pw b).2.transactions = s.transactions
        ∧ (register_student s n r rm pw b).2.transactions.filter
            (fun t => t.user_id == s.next_user_id) = []) := by
  unfold register_student
  simp only [hfmt, Bool.not_true, Bool.false_eq_true, if_false]
  rw [hdup]
  dsimp only
  by_cases hb : b > 0
  · rw [if_pos hb]
    exact ⟨rfl, rfl, fun _ => rfl, fun hle => absurd hb (not_lt.2 hle)⟩
  · rw [if_neg hb]
    refine ⟨rfl, rfl, fun hpos => absurd hpos hb, fun hle => ⟨rfl, ?_⟩⟩
    apply List.filter_eq_nil_iff.2
    intro t ht
    simpa using Nat.ne_of_lt (hwf.trans_user_lt t ht)

/-- Witness for C10: Bob's registration (balance 100) writes exactly the
one initial entry; a registration with balance 0 writes none. -/
theorem claim_C10_witness :
    demoReg.transactions
      = [{ user_id := 1, amount := 100, transaction_type := "credit",
           description := "Initial wallet balance", balance_after := 100 }]
    ∧ (register_student initState "Zed" "2024-ZZ-900" "C3" "pw" 0).2.transactions
      = [] := by
  have h1 := claim_C10_register_initial_entry_iff_positive initState WF_initState
    "Bob" "2024-CS-562" "A1" "pw" 100 (by decide) (by decide)
  have h2 := claim_C10_register_initial_entry_iff_positive initState WF_initState
    "Zed" "2024-ZZ-900" "C3" "pw" 0 (by decide) (by decide)
  exact ⟨h1.2.2.1 (by decide), (h2.2.2.2 (le_refl 0)).1⟩

/-- **C3**: the scan checks its preconditions in the specified order
(student exists, account active, meal exists, no prior attendance,
sufficient balance), short-circuits on the first failure, returns a
distinct outcome per failure kind (the five failure constructors are
pairwise distinct and distinct from success), and on every failure the
state is unchanged. -/
theorem claim_C3_scan_order_shortcircuit_rollback (s : AppState)
    (roll : String) (mid now : Nat) :
    (s.users.find? (fun u => u.username == roll && u.role == "student") = none →
      process_scan s roll mid now = (.studentNotFound, s))
    ∧ (∀ student,
        s.users.find? (fun u => u.username == roll && u.role == "student")
          = some student →
        student.is_active = false →
        process_scan s roll mid now = (.accountDeactivated, s))
    ∧ (∀ student,
        s.users.find? (fun u => u.username == roll && u.role == "student")
          = some student →
        student.is_active = true →
        s.meals.find? (fun m => m.id == mid) = none →
        process_scan s roll mid now = (.mealNotFound, s))
    ∧ (∀ student meal a,
        s.users.find? (fun u => u.username == roll && u.role == "student")
          = some student →
        student.is_active = true →
        s.meals.find? (fun m => m.id == mid) = some meal →
        s.attendances.find? (fun a2 =>
          a2.user_id == student.id && a2.meal_id == meal.id) = some a →
        process_scan s roll mid now = (.alreadyScanned, s))
    ∧ (∀ student meal,
        s.users.find? (fun u => u.username == roll && u.role == "student")
          = some student →
        student.is_active = true →
        s.meals.find? (fun m => m.id == mid) = some meal →
        s.attendances.find? (fun a2 =>
          a2.user_id == student.id && a2.meal_id == meal.id) = none →
        student.wallet_balance < meal.price →
        process_scan s roll mid now
          = (.insufficientBalance student.wallet_balance, s))
    ∧ ((process_scan s roll mid now).1.isSuccess = false →
        (process_scan s roll mid now).2 = s)
    ∧ (∀ b : Int,
        ([.studentNotFound, .accountDeactivated, .mealNotFound, .alreadyScanned,
          .insufficientBalance b] : List ScanOutcome).Nodup
        ∧ ∀ nm ty amt nb, ScanOutcome.success nm ty amt nb ∉
            ([.studentNotFound, .accountDeactivated, .mealNotFound,
              .alreadyScanned, .insufficientBalance b] : List ScanOutcome)) := by
  refine ⟨?_, ?_, ?_, ?_, ?_, ?_, ?_⟩
  · exact fun h => process_scan_studentNotFound_eq s roll mid now h
  · exact fun student h1 h2 =>
      process_scan_deactivated_eq s roll mid now student h1 h2
  · exact fun student h1 h2 h3 =>
      process_scan_mealNotFound_eq s roll mid now student h1 h2 h3
  · exact fun student meal a h1 h2 h3 h4 =>
      process_scan_alreadyScanned_eq s roll mid now student meal a h1 h2 h3 h4
  · exact fun student meal h1 h2 h3 h4 h5 =>
      process_scan_insufficient_eq s roll mid now student meal h1 h2 h3 h4 h5
  · intro hfail
    cases hstud : s.users.find? (fun u => u.username == roll && u.role == "student") with
    | none => rw [process_scan_studentNotFound_eq s roll mid now hstud]
    | some student =>
      cases hact : student.is_active with
      | false =>
        rw [process_scan_deactivated_eq s roll mid now student hstud hact]
      | true =>
        cases hmeal : s.meals.find? (fun m => m.id == mid) with
        | none =>
          rw [process_scan_mealNotFound_eq s roll mid now student hstud hact hmeal]
        | some meal =>
          cases hatt : s.attendances.find? (fun a2 =>
              a2.user_id == student.id && a2.meal_id == meal.id) with
          | some a =>
            rw [process_scan_alreadyScanned_eq s roll mid now student meal a
              hstud hact hmeal hatt]
          | none =>
            by_cases hbal : student.wallet_balance < meal.price
            · rw [process_scan_insufficient_eq s roll mid now student meal
                hstud hact hmeal hatt hbal]
            · rw [process_scan_success_eq s roll mid now student meal
                hstud hact hmeal hatt hbal] at hfail
              simp [ScanOutcome.isSuccess] at hfail
  · intro b
    constructor
    · simp
    · intro nm ty amt nb
      simp

/-- Witness for C3: scanning an unknown roll number fails with the
student-not-found outcome and leaves the state unchanged. -/
theorem claim_C3_witness :
    process_scan initState "2024-CS-562" 0 0
      = (ScanOutcome.studentNotFound, initState) :=
  (claim_C3_scan_order_shortcircuit_rollback initState "2024-CS-562" 0 0).1
    (by decide)

/-- **C5**: a refund request by a student for an existing attendance
succeeds iff the attendance belongs to the requester (else unauthorized),
no refund request of any status already references it (else duplicate
rejection), and `now − scanned_at ≤ 24` hours (else window-expired;
exactly 24 hours is still eligible); on success a pending request is
created with `amount` equal to the attendance's `amount_paid`. -/
theorem claim_C5_refund_request_eligibility (s : AppState) (cid aid : Nat)
    (reason : String) (now : Nat) (caller : User) (att : Attendance)
    (hcaller : s.users.find? (fun u => u.id == cid) = some caller)
    (hrole : caller.role = "student")
    (hatt : s.attendances.find? (fun a => a.id == aid) = some att) :
    ((request_refund s cid aid reason now).1 = .ok ↔
      att.user_id = caller.id
      ∧ (∀ r ∈ s.refund_requests, r.attendance_id ≠ aid)
      ∧ now - att.scanned_at ≤ refundWindow)
    ∧ ((request_refund s cid aid reason now).1 = .ok →
        (request_refund s cid aid reason now).2.refund_requests
        = s.refund_requests ++
          [{ id := s.next_refund_id, user_id := caller.id, attendance_id := aid,
             amount := att.amount_paid, reason := reason, status := "pending",
             admin_remarks := none, processed_at := none }])
    ∧ (att.user_id ≠ caller.id →
        request_refund s cid aid reason now = (.unauthorized, s))
    ∧ ((∃ r ∈ s.refund_requests, r.attendance_id = aid) →
        att.user_id = caller.id →
        request_refund s cid aid reason now = (.alreadyRequested, s))
    ∧ ((∀ r ∈ s.refund_requests, r.attendance_id ≠ aid) →
        att.user_id = caller.id →
        now - att.scanned_at > refundWindow →
        request_refund s cid aid reason now = (.windowExpired, s)) := by
  by_cases hown : att.user_id = caller.id
  · cases hdup : s.refund_requests.find? (fun r => r.attendance_id == aid) with
    | some r0 =>
      have heq := request_refund_dup_eq s cid aid reason now caller att r0
        hcaller hrole hatt hown hdup
      have hr0mem := List.mem_of_find?_eq_some hdup
      have hr0aid : r0.attendance_id = aid := by
        have := List.find?_some hdup
        simpa using this
      refine ⟨?_, ?_, ?_, ?_, ?_⟩
      · rw [heq]
        exact iff_of_false (by simp) (fun h => h.2.1 r0 hr0mem hr0aid)
      · rw [heq]
        intro hc
        simp at hc
      · intro hne
        exact absurd hown hne
      · intro _ _
        exact heq
      · intro hall _ _
        exact absurd hr0aid (hall r0 hr0mem)
    | none =>
      have hnone : ∀ r ∈ s.refund_requests, r.attendance_id ≠ aid := by
        rw [List.find?_eq_none] at hdup
        intro r hr hcon
        exact hdup r hr (by simp [hcon])
      by_cases hwin : now - att.scanned_at > refundWindow
      · have heq := request_refund_expired_eq s cid aid reason now caller att
          hcaller hrole hatt hown hdup hwin
        refine ⟨?_, ?_, ?_, ?_, ?_⟩
        · rw [heq]
          exact iff_of_false (by simp) (fun h => absurd hwin (not_lt.2 h.2.2))
        · rw [heq]
          intro hc
          simp at hc
        · intro hne
          exact absurd hown hne
        · rintro ⟨r, hr, hraid⟩ _
          exact absurd hraid (hnone r hr)
        · intro _ _ _
          exact heq
      · have heq := request_refund_ok_eq s cid aid reason now caller att
          hcaller hrole hatt hown hdup hwin
        refine ⟨?_, ?_, ?_, ?_, ?_⟩
        · rw [heq]
          exact iff_of_true rfl ⟨hown, hnone, not_lt.1 hwin⟩
        · rw [heq]
          intro _
          rfl
        · intro hne
          exact absurd hown hne
        · rintro ⟨r, hr, hraid⟩ _
          exact absurd hraid (hnone r hr)
        · intro _ _ hw
          exact absurd hw hwin
  · have heq := request_refund_unauthorized_eq s cid aid reason now caller att
      hcaller hrole hatt hown
    refine ⟨?_, ?_, ?_, ?_, ?_⟩
    · rw [heq]
      exact iff_of_false (by simp) (fun h => hown h.1)
    · rw [heq]
      intro hc
      simp at hc
    · intro _
      exact heq
    · intro _ h1
      exact absurd h1 hown
    · intro _ h1 _
      exact absurd h1 hown

/-- Witness for C5 at the window boundary: a request exactly 24 hours
after the scan succeeds; one second later it is rejected as expired. -/
theorem claim_C5_witness :
    (request_refund demoScan 1 0 "late" (1000 + refundWindow)).1
      = RefundRequestOutcome.ok
    ∧ request_refund demoScan 1 0 "late" (1000 + refundWindow + 1)
      = (RefundRequestOutcome.windowExpired, demoScan) := by
  have h1 := claim_C5_refund_request_eligibility demoScan 1 0 "late"
    (1000 + refundWindow) demoBobAfter demoAtt (by decide) rfl (by decide)
  have h2 := claim_C5_refund_request_eligibility demoScan 1 0 "late"
    (1000 + refundWindow + 1) demoBobAfter demoAtt (by decide) rfl (by decide)
  exact ⟨h1.1.mpr ⟨rfl, by decide, by decide⟩,
    h2.2.2.2.2 (by decide) rfl (by decide)⟩

/-- `updateFirst` changes (at most) the row `find?` returns. -/
theorem mem_updateFirst_find? {α : Type} {p : α → Bool} {f : α → α}
    {l : List α} {a : α} (h : a ∈ updateFirst p f l) :
    a ∈ l ∨ ∃ b, l.find? p = some b ∧ a = f b := by
  induction l with
  | nil => simp [updateFirst] at h
  | cons c l ih =>
    by_cases hp : p c
    · rw [updateFirst, if_pos hp] at h
      rcases List.mem_cons.1 h with h | h
      · exact Or.inr ⟨c, List.find?_cons_of_pos _ hp, h⟩
      · exact Or.inl (List.mem_cons_of_mem _ h)
    · rw [updateFirst, if_neg hp] at h
      rcases List.mem_cons.1 h with h | h
      · exact Or.inl (h ▸ List.mem_cons_self c l)
      · rcases ih h with h | ⟨b, hb, hab⟩
        · exact Or.inl (List.mem_cons_of_mem _ h)
        · exact Or.inr ⟨b, (List.find?_cons_of_neg _ hp).symm ▸ hb, hab⟩

/-- A row present after `request_refund` was either already present or is
the freshly inserted request. -/
theorem request_refund_refunds_sub (s : AppState) (cid aid : Nat)
    (reason : String) (now : Nat) (rp : RefundRequest)
    (hrp : rp ∈ (request_refund s cid aid reason now).2.refund_requests) :
    rp ∈ s.refund_requests ∨ rp.id = s.next_refund_id := by
  unfold request_refund at hrp
  repeat' split at hrp
  all_goals
    first
    | exact Or.inl hrp
    | (rcases List.mem_append.1 hrp with h | h
       · exact Or.inl h
       · rcases List.mem_singleton.1 h with rfl
         exact Or.inr rfl)

/-- A row present after `process_refund` was either already present or is
the resolved (approved/rejected) version of the pending request the call
found. -/
theorem process_refund_refunds_sub (s : AppState) (rid : Nat)
    (action remarks : String) (now : Nat) (rp : RefundRequest)
    (hrp : rp ∈ (process_refund s rid action remarks now).2.refund_requests) :
    rp ∈ s.refund_requests
    ∨ ∃ b, b ∈ s.refund_requests ∧ b.status = "pending" ∧ rp.id = b.id
        ∧ (rp.status = "approved" ∨ rp.status = "rejected") := by
  unfold process_refund at hrp
  cases hr : s.refund_requests.find? (fun r => r.id == rid) with
  | none =>
    rw [hr] at hrp
    exact Or.inl hrp
  | some rr =>
    rw [hr] at hrp
    dsimp only at hrp
    by_cases hst : (rr.status == "pending") = true
    · simp only [hst, Bool.not_true, Bool.false_eq_true, if_false] at hrp
      have hpend : rr.status = "pending" := by simpa using hst
      have hmem : rr ∈ s.refund_requests := List.mem_of_find?_eq_some hr
      by_cases hact : (action == "approve") = true
      · simp only [hact, if_true] at hrp
        cases hu : s.users.find? (fun u => u.id == rr.user_id) with
        | none =>
          rw [hu] at hrp
          exact Or.inl hrp
        | some student =>
          rw [hu] at hrp
          dsimp only at hrp
          rcases mem_updateFirst_find? hrp with h | ⟨b, hb, rfl⟩
          · exact Or.inl h
          · have hbrr : b = rr := by
              rw [hr] at hb
              exact (Option.some.inj hb).symm
            subst hbrr
            exact Or.inr ⟨b, hmem, hpend, rfl, Or.inl rfl⟩
      · simp only [hact, Bool.false_eq_true, if_false] at hrp
        by_cases hrej : (action == "reject") = true
        · simp only [hrej, if_true] at hrp
          rcases mem_updateFirst_find? hrp with h | ⟨b, hb, rfl⟩
          · exact Or.inl h
          · have hbrr : b = rr := by
              rw [hr] at hb
              exact (Option.some.inj hb).symm
            subst hbrr
            exact Or.inr ⟨b, hmem, hpend, rfl, Or.inr rfl⟩
        · simp only [hrej, Bool.false_eq_true, if_false] at hrp
          exact Or.inl hrp
    · simp only [Bool.not_eq_true] at hst
      simp only [hst, Bool.not_false, if_true] at hrp
      exact Or.inl hrp

/-- Two id-matched rows of the same well-formed request table are equal,
so a status difference is impossible. -/
theorem refund_stable_of_same_list {s : AppState} (hwf : WF s)
    {r rp : RefundRequest} (hr : r ∈ s.refund_requests)
    (hrp : rp ∈ s.refund_requests) (hid : rp.id = r.id)
    (hst : rp.status ≠ r.status) :
    r.status = "pending" ∧ (rp.status = "approved" ∨ rp.status = "rejected") :=
  absurd (congrArg RefundRequest.status
    (eq_of_mem_nodup_id hwf.refund_ids_nodup hrp hr hid)) hst

/-- **C6**: approving a pending refund request credits back exactly the
amount captured in the request (not the meal's current price — the
outcome is invariant under replacing the whole meal table), appends one
corresponding credit ledger entry, sets the status to approved with
`processed_at`; and this happens exactly once — a second resolve call on
the same request fails with the already-processed outcome and changes no
state. -/
theorem claim_C6_refund_approval_exactly_once (s : AppState) (rid : Nat)
    (remarks : String) (now : Nat) (rr : RefundRequest) (student : User)
    (hr : s.refund_requests.find? (fun r => r.id == rid) = some rr)
    (hst : rr.status = "pending")
    (hu : s.users.find? (fun u => u.id == rr.user_id) = some student) :
    (process_refund s rid "approve" remarks now).1 = .approved rr.amount
    ∧ balanceOfId (process_refund s rid "approve" remarks now).2 rr.user_id
      = some (student.wallet_balance + rr.amount)
    ∧ (process_refund s rid "approve" remarks now).2.transactions
      = s.transactions ++
        [{ user_id := student.id, amount := rr.amount,
           transaction_type := "credit", description := refundDescription s rr,
           balance_after := student.wallet_balance + rr.amount }]
    ∧ (process_refund s rid "approve" remarks now).2.refund_requests.find?
        (fun r => r.id == rid)
      = some { rr with status := "approved", admin_remarks := some remarks,
                       processed_at := some now }
    ∧ (∀ action2 remarks2 now2,
        process_refund (process_refund s rid "approve" remarks now).2 rid
          action2 remarks2 now2
        = (.alreadyProcessed, (process_refund s rid "approve" remarks now).2))
    ∧ (∀ ms : List Meal,
        (process_refund { s with meals := ms } rid "approve" remarks now).1
          = .approved rr.amount) := by
  have heq := process_refund_approve_eq s rid remarks now rr student hr hst hu
  have hfind2 : (process_refund s rid "approve" remarks now).2.refund_requests.find?
      (fun r => r.id == rid)
      = some { rr with status := "approved", admin_remarks := some remarks,
                       processed_at := some now } := by
    rw [heq]
    dsimp only
    rw [find?_updateFirst_self (fun r : RefundRequest => r.id == rid)
      (fun r : RefundRequest => { r with status := "approved", admin_remarks := some remarks, processed_at := some now })
      (fun r => rfl), hr]
    rfl
  refine ⟨by rw [heq], ?_, by rw [heq], hfind2, ?_, ?_⟩
  · rw [heq]
    unfold balanceOfId
    dsimp only
    rw [find?_updateFirst_self (fun u : User => u.id == rr.user_id)
      (fun u : User => { u with wallet_balance := u.wallet_balance + rr.amount })
      (fun u => rfl), hu]
    rfl
  · intro action2 remarks2 now2
    exact process_refund_notPending_eq _ rid action2 remarks2 now2 _ hfind2
      (show ("approved" : String) ≠ "pending" by decide)
  · intro ms
    have hr2 : ({ s with meals := ms } : AppState).refund_requests.find?
        (fun r => r.id == rid) = some rr := hr
    have hu2 : ({ s with meals := ms } : AppState).users.find?
        (fun u => u.id == rr.user_id) = some student := hu
    rw [process_refund_approve_eq { s with meals := ms } rid remarks now rr
      student hr2 hst hu2]

/-- Witness for C6: the lunch's price was edited from 50 to 80 after
Bob's scan; approving his request still credits the captured 50
(balance 50 → 100), and a second resolve call fails with
already-processed. -/
theorem claim_C6_witness :
    (process_refund demoEdit 0 "approve" "ok" 3000).1
      = RefundResolveOutcome.approved 50
    ∧ balanceOfId (process_refund demoEdit 0 "approve" "ok" 3000).2 1 = some 100
    ∧ process_refund (process_refund demoEdit 0 "approve" "ok" 3000).2 0
        "approve" "again" 4000
      = (RefundResolveOutcome.alreadyProcessed,
         (process_refund demoEdit 0 "approve" "ok" 3000).2) := by
  have h := claim_C6_refund_approval_exactly_once demoEdit 0 "ok" 3000
    demoPending demoBobAfter (by decide) rfl (by decide)
  exact ⟨h.1, h.2.1, h.2.2.2.2.1 "approve" "again" 4000⟩

/-- **C4**: at most one attendance per `(account, meal)` pair — every
operation preserves pairwise uniqueness of `(user_id, meal_id)` over the
attendance table — and scanning the same pair twice makes the first call
succeed, the second fail with the already-scanned outcome without
touching the state, so the balance changes exactly once. -/
theorem claim_C4_attendance_pair_unique :
    (∀ (s : AppState) (op : Op), attPairUnique s → attPairUnique (applyOp s op))
    ∧ (∀ (s : AppState) (roll : String) (mid now1 now2 : Nat)
        (nm ty : String) (amt nb : Int),
        (process_scan s roll mid now1).1 = .success nm ty amt nb →
        process_scan (process_scan s roll mid now1).2 roll mid now2
          = (.alreadyScanned, (process_scan s roll mid now1).2)
        ∧ balanceOf s roll = some (nb + amt)
        ∧ balanceOf (process_scan s roll mid now1).2 roll = some nb) := by
  constructor
  · intro s op h
    cases op with
    | register n r rm pw b =>
      unfold attPairUnique at h ⊢
      rw [show (applyOp s (.register n r rm pw b)).attendances
        = s.attendances from register_student_atts_eq s n r rm pw b]
      exact h
    | addBalance i a =>
      unfold attPairUnique at h ⊢
      rw [show (applyOp s (.addBalance i a)).attendances
        = s.attendances from add_balance_atts_eq s i a]
      exact h
    | apiAddBalance i a =>
      unfold attPairUnique at h ⊢
      rw [show (applyOp s (.apiAddBalance i a)).attendances
        = s.attendances from api_add_balance_atts_eq s i a]
      exact h
    | createMeal d ty p mn =>
      unfold attPairUnique at h ⊢
      rw [show (applyOp s (.createMeal d ty p mn)).attendances
        = s.attendances from manage_meals_atts_eq s d ty p mn]
      exact h
    | editMeal i d ty p mn act =>
      unfold attPairUnique at h ⊢
      rw [show (applyOp s (.editMeal i d ty p mn act)).attendances
        = s.attendances from edit_meal_atts_eq s i d ty p mn act]
      exact h
    | deleteMeal i =>
      unfold attPairUnique at h ⊢
      rw [show (applyOp s (.deleteMeal i)).attendances
        = s.attendances from delete_meal_atts_eq s i]
      exact h
    | toggleMeal i act =>
      unfold attPairUnique at h ⊢
      rw [show (applyOp s (.toggleMeal i act)).attendances
        = s.attendances from toggle_meal_atts_eq s i act]
      exact h
    | sweepMeals today =>
      exact h
    | editStudent i n rm pw =>
      unfold attPairUnique at h ⊢
      rw [show (applyOp s (.editStudent i n rm pw)).attendances
        = s.attendances from edit_student_atts_eq s i n rm pw]
      exact h
    | deleteStudent i =>
      unfold attPairUnique at h ⊢
      rw [show (applyOp s (.deleteStudent i)).attendances
        = s.attendances from delete_student_atts_eq s i]
      exact h
    | toggleStudent i =>
      unfold attPairUnique at h ⊢
      rw [show (applyOp s (.toggleStudent i)).attendances
        = s.attendances from toggle_student_atts_eq s i]
      exact h
    | refundRequest c a rsn now =>
      unfold attPairUnique at h ⊢
      rw [show (applyOp s (.refundRequest c a rsn now)).attendances
        = s.attendances from request_refund_atts_eq s c a rsn now]
      exact h
    | refundResolve i act rem now =>
      unfold attPairUnique at h ⊢
      rw [show (applyOp s (.refundResolve i act rem now)).attendances
        = s.attendances from process_refund_atts_eq s i act rem now]
      exact h
    | scan roll mid now =>
      cases hstud : s.users.find? (fun u => u.username == roll && u.role == "student") with
      | none =>
        unfold attPairUnique at h ⊢
        rw [show (applyOp s (.scan roll mid now)).attendances = s.attendances by
          dsimp only [applyOp]
          rw [process_scan_studentNotFound_eq s roll mid now hstud]]
        exact h
      | some student =>
        cases hact : student.is_active with
        | false =>
          unfold attPairUnique at h ⊢
          rw [show (applyOp s (.scan roll mid now)).attendances = s.attendances by
            dsimp only [applyOp]
            rw [process_scan_deactivated_eq s roll mid now student hstud hact]]
          exact h
        | true =>
          cases hmeal : s.meals.find? (fun m => m.id == mid) with
          | none =>
            unfold attPairUnique at h ⊢
            rw [show (applyOp s (.scan roll mid now)).attendances = s.attendances by
              dsimp only [applyOp]
              rw [process_scan_mealNotFound_eq s roll mid now student hstud hact hmeal]]
            exact h
          | some meal =>
            cases hatt : s.attendances.find? (fun a2 =>
                a2.user_id == student.id && a2.meal_id == meal.id) with
            | some a =>
              unfold attPairUnique at h ⊢
              rw [show (applyOp s (.scan roll mid now)).attendances = s.attendances by
                dsimp only [applyOp]
                rw [process_scan_alreadyScanned_eq s roll mid now student meal a
                  hstud hact hmeal hatt]]
              exact h
            | none =>
              by_cases hbal : student.wallet_balance < meal.price
              · unfold attPairUnique at h ⊢
                rw [show (applyOp s (.scan roll mid now)).attendances = s.attendances by
                  dsimp only [applyOp]
                  rw [process_scan_insufficient_eq s roll mid now student meal
                    hstud hact hmeal hatt hbal]]
                exact h
              · unfold attPairUnique at h ⊢
                dsimp only [applyOp]
                rw [process_scan_success_eq s roll mid now student meal
                  hstud hact hmeal hatt hbal]
                dsimp only
                rw [List.pairwise_append]
                refine ⟨h, List.pairwise_singleton _ _, ?_⟩
                intro a ha b hb
                rcases List.mem_singleton.1 hb with rfl
                rintro ⟨h1, h2⟩
                rw [List.find?_eq_none] at hatt
                exact hatt a ha (by simp [h1, h2])
  · intro s roll mid now1 now2 nm ty amt nb hsucc
    cases hstud : s.users.find? (fun u => u.username == roll && u.role == "student") with
    | none =>
      rw [process_scan_studentNotFound_eq s roll mid now1 hstud] at hsucc
      exact absurd hsucc (by simp)
    | some student =>
      cases hact : student.is_active with
      | false =>
        rw [process_scan_deactivated_eq s roll mid now1 student hstud hact] at hsucc
        exact absurd hsucc (by simp)
      | true =>
        cases hmeal : s.meals.find? (fun m => m.id == mid) with
        | none =>
          rw [process_scan_mealNotFound_eq s roll mid now1 student hstud hact
            hmeal] at hsucc
          exact absurd hsucc (by simp)
        | some meal =>
          cases hatt : s.attendances.find? (fun a2 =>
              a2.user_id == student.id && a2.meal_id == meal.id) with
          | some a =>
            rw [process_scan_alreadyScanned_eq s roll mid now1 student meal a
              hstud hact hmeal hatt] at hsucc
            exact absurd hsucc (by simp)
          | none =>
            by_cases hbal : student.wallet_balance < meal.price
            · rw [process_scan_insufficient_eq s roll mid now1 student meal
                hstud hact hmeal hatt hbal] at hsucc
              exact absurd hsucc (by simp)
            · have heq := process_scan_success_eq s roll mid now1 student meal
                hstud hact hmeal hatt hbal
              rw [heq] at hsucc
              injection hsucc with h1 h2 h3 h4
              subst h1
              subst h2
              subst h3
              subst h4
              have hstud2 : (updateFirst
                  (fun u => u.username == roll && u.role == "student")
                  (fun u => { u with wallet_balance := u.wallet_balance - meal.price })
                  s.users).find?
                  (fun u => u.username == roll && u.role == "student")
                = some { student with
                    wallet_balance := student.wallet_balance - meal.price } := by
                rw [find?_updateFirst_self
                  (fun u : User => u.username == roll && u.role == "student")
                  (fun u : User => { u with wallet_balance := u.wallet_balance - meal.price })
                  (fun u => rfl), hstud]
                rfl
              refine ⟨?_, ?_, ?_⟩
              · rw [heq]
                refine process_scan_alreadyScanned_eq _ roll mid now2
                  { student with
                    wallet_balance := student.wallet_balance - meal.price }
                  meal
                  { id := s.next_attendance_id, user_id := student.id,
                    meal_id := meal.id, amount_paid := meal.price,
                    scanned_at := now1 }
                  hstud2 hact hmeal ?_
                rw [find?_append_of_none hatt]
                exact List.find?_cons_of_pos _ (by simp)
              · unfold balanceOf
                rw [hstud]
                show some student.wallet_balance
                  = some (student.wallet_balance - meal.price + meal.price)
                congr 1
                omega
              · rw [heq]
                unfold balanceOf
                dsimp only
                rw [hstud2]
                rfl

/-- Witness for C4: Bob's second scan of the same lunch is refused and
his balance is unchanged by the second call. -/
theorem claim_C4_witness :
    process_scan demoScan "2024-CS-562" 0 1500 = (.alreadyScanned, demoScan)
    ∧ balanceOf demoMeals "2024-CS-562" = some 100
    ∧ balanceOf demoScan "2024-CS-562" = some 50 := by
  have h := (claim_C4_attendance_pair_unique).2 demoMeals "2024-CS-562" 0 1000
    1500 "Bob" "lunch" 50 50 (by decide)
  exact ⟨h.1, h.2.1, h.2.2⟩

/-- **C7**: refund-request statuses only move pending→approved or
pending→rejected — no operation changes the status of a resolved
request; rejecting performs no ledger mutation and no balance change;
and an action other than approve/reject on a pending request fails with
the invalid-action outcome and changes nothing (a resolved request gets
the already-processed outcome and changes nothing). -/
theorem claim_C7_refund_status_machine :
    (∀ (s : AppState) (op : Op) (r rp : RefundRequest), WF s →
        r ∈ s.refund_requests → rp ∈ (applyOp s op).refund_requests →
        rp.id = r.id → rp.status ≠ r.status →
        r.status = "pending"
        ∧ (rp.status = "approved" ∨ rp.status = "rejected"))
    ∧ (∀ (s : AppState) (rid : Nat) (remarks : String) (now : Nat)
        (rr : RefundRequest),
        s.refund_requests.find? (fun r2 => r2.id == rid) = some rr →
        rr.status = "pending" →
        (process_refund s rid "reject" remarks now).1 = .rejected
        ∧ (process_refund s rid "reject" remarks now).2.transactions
          = s.transactions
        ∧ (process_refund s rid "reject" remarks now).2.users = s.users)
    ∧ (∀ (s : AppState) (rid : Nat) (action remarks : String) (now : Nat)
        (rr : RefundRequest),
        s.refund_requests.find? (fun r2 => r2.id == rid) = some rr →
        rr.status = "pending" → action ≠ "approve" → action ≠ "reject" →
        process_refund s rid action remarks now = (.invalidAction, s))
    ∧ (∀ (s : AppState) (rid : Nat) (action remarks : String) (now : Nat)
        (rr : RefundRequest),
        s.refund_requests.find? (fun r2 => r2.id == rid) = some rr →
        rr.status ≠ "pending" →
        process_refund s rid action remarks now = (.alreadyProcessed, s)) := by
  refine ⟨?_, ?_, ?_, ?_⟩
  · intro s op r rp hwf hr hrp hid hst
    cases op with
    | register n r2 rm pw b =>
      dsimp only [applyOp] at hrp
      rw [register_student_refunds_eq] at hrp
      exact refund_stable_of_same_list hwf hr hrp hid hst
    | addBalance i a =>
      dsimp only [applyOp] at hrp
      rw [add_balance_refunds_eq] at hrp
      exact refund_stable_of_same_list hwf hr hrp hid hst
    | apiAddBalance i a =>
      dsimp only [applyOp] at hrp
      rw [api_add_balance_refunds_eq] at hrp
      exact refund_stable_of_same_list hwf hr hrp hid hst
    | createMeal d ty p mn =>
      dsimp only [applyOp] at hrp
      rw [manage_meals_refunds_eq] at hrp
      exact refund_stable_of_same_list hwf hr hrp hid hst
    | editMeal i d ty p mn act =>
      dsimp only [applyOp] at hrp
      rw [edit_meal_refunds_eq] at hrp
      exact refund_stable_of_same_list hwf hr hrp hid hst
    | deleteMeal i =>
      dsimp only [applyOp] at hrp
      rw [delete_meal_refunds_eq] at hrp
      exact refund_stable_of_same_list hwf hr hrp hid hst
    | toggleMeal i act =>
      dsimp only [applyOp] at hrp
      rw [toggle_meal_refunds_eq] at hrp
      exact refund_stable_of_same_list hwf hr hrp hid hst
    | sweepMeals today =>
      exact refund_stable_of_same_list hwf hr hrp hid hst
    | editStudent i n rm pw =>
      dsimp only [applyOp] at hrp
      rw [edit_student_refunds_eq] at hrp
      exact refund_stable_of_same_list hwf hr hrp hid hst
    | deleteStudent i =>
      dsimp only [applyOp] at hrp
      rw [delete_student_refunds_eq] at hrp
      exact refund_stable_of_same_list hwf hr hrp hid hst
    | toggleStudent i =>
      dsimp only [applyOp] at hrp
      rw [toggle_student_refunds_eq] at hrp
      exact refund_stable_of_same_list hwf hr hrp hid hst
    | scan roll mid now =>
      dsimp only [applyOp] at hrp
      rw [process_scan_refunds_eq] at hrp
      exact refund_stable_of_same_list hwf hr hrp hid hst
    | refundRequest cid aid rsn now =>
      rcases request_refund_refunds_sub s cid aid rsn now rp hrp with h | hnew
      · exact refund_stable_of_same_list hwf hr h hid hst
      · have hlt : r.id < s.next_refund_id := hwf.refund_id_lt r hr
        exact absurd (hid.symm.trans hnew) (Nat.ne_of_lt hlt)
    | refundResolve rid act rem now =>
      rcases process_refund_refunds_sub s rid act rem now rp hrp with
        h | ⟨b, hb, hbst, hbid, hrpst⟩
      · exact refund_stable_of_same_list hwf hr h hid hst
      · have hbr : b = r :=
          eq_of_mem_nodup_id hwf.refund_ids_nodup hb hr (hbid.symm.trans hid)
        exact ⟨hbr ▸ hbst, hrpst⟩
  · intro s rid remarks now rr hfind hpend
    rw [process_refund_reject_eq s rid remarks now rr hfind hpend]
    exact ⟨rfl, rfl, rfl⟩
  · intro s rid action remarks now rr hfind hpend ha1 ha2
    exact process_refund_invalid_eq s rid action remarks now rr hfind hpend ha1 ha2
  · intro s rid action remarks now rr hfind hnp
    exact process_refund_notPending_eq s rid action remarks now rr hfind hnp

/-- Witness for C7: rejecting the already-approved request is refused
with no state change, and an unknown action on a pending request is
refused with no state change. -/
theorem claim_C7_witness :
    process_refund demoApproved 0 "reject" "try" 5000
      = (RefundResolveOutcome.alreadyProcessed, demoApproved)
    ∧ process_refund demoReq 0 "oops" "x" 3000
      = (RefundResolveOutcome.invalidAction, demoReq) := by
  have h := claim_C7_refund_status_machine
  exact ⟨h.2.2.2 demoApproved 0 "reject" "try" 5000 demoDone (by decide)
      (by decide),
    h.2.2.1 demoReq 0 "oops" "x" 3000 demoPending (by decide) rfl (by decide)
      (by decide)⟩

/-- **C1** (amended): along every run of operations in which each
registration supplies a nonnegative opening balance, every account's
stored balance equals the `balance_after` of its most recent ledger entry
(zero if it has none). The claim as stated over arbitrary operations is
refuted by `claim_C1_counterexample`: registering a student with a
negative opening balance stores that balance while writing no ledger
entry. -/
theorem claim_C1_balance_matches_ledger {s : AppState}
    (h : ReachableOK s) : ledgerInv s :=
  (reachableOK_invariants h).2

/-- Counterexample for C1 as stated: one admissible registration with
opening balance −1 yields a reachable state whose registered account has
balance −1 but no ledger entry (the invariant demands zero). -/
theorem claim_C1_counterexample :
    Reachable (applyOp initState
      (Op.register "Mallory" "2024-CS-666" "D4" "pw" (-1)))
    ∧ ¬ledgerInv (applyOp initState
      (Op.register "Mallory" "2024-CS-666" "D4" "pw" (-1))) :=
  ⟨Reachable.step (Op.register "Mallory" "2024-CS-666" "D4" "pw" (-1))
    Reachable.init, by decide⟩

/-- Witness for C1: after Bob's registration (+100), the meal creation
and his scan (−50), every stored balance matches its latest ledger
entry. -/
theorem claim_C1_witness :
    ledgerInv (applyOp (applyOp (applyOp initState
      (Op.register "Bob" "2024-CS-562" "A1" "pw" 100))
      (Op.createMeal 10 "lunch" 50 "rice"))
      (Op.scan "2024-CS-562" 0 1000)) :=
  claim_C1_balance_matches_ledger
    (ReachableOK.step
      (ReachableOK.step
        (ReachableOK.step ReachableOK.init (by decide : (0:Int) ≤ 100))
        trivial)
      trivial)

end Scan2Eat
